import Mathlib

/-!
Shallow embedding of the clrmeta CLI-metadata library (ECMA-335 Partition II
codec) and proofs about its specification claims.

Bytes are modelled as `Nat` values kept below 256 by explicit `% 256`
reductions wherever the Rust source performs an `as u8` cast; machine-word
arithmetic is modelled on `Nat` with explicit `% 2^w` where wrapping matters.
Writers are byte lists that grow by appending; readers are a byte list plus a
cursor position, mirroring `writer.rs` and `reader.rs`.
-/

set_option linter.unreachableTactic false
set_option linter.unusedTactic false

namespace Clrmeta

/-- Error type mirroring `error.rs` (`Error`). Only payloads the embedded
    functions inspect are carried. -/
inductive Err where
  | invalidSignature (got : Nat)
  | unexpectedEof (offset needed : Nat)
  | invalidStreamName (offset : Nat)
  | streamNotFound (name : List Nat)
  | invalidString (offset : Nat)
  | invalidUserString (offset : Nat)
  | invalidTableId (id : Nat)
  | invalidCompressedInt (offset : Nat)
  | invalidGuidIndex (index : Nat)
  | invalidBlob (offset : Nat)
  | validationError (msg : String)
deriving DecidableEq, Repr

/-- Result type mirroring `Result<T, Error>` from `error.rs`. -/
inductive Res (α : Type) where
  | ok (val : α)
  | err (e : Err)
deriving DecidableEq, Repr

/-- True when the result is `Ok`, mirroring `Result::is_ok`. -/
def Res.isOk {α : Type} : Res α → Bool
  | .ok _ => true
  | .err _ => false

/-- True when the result is `Err`, mirroring `Result::is_err`. -/
def Res.isErr {α : Type} : Res α → Bool
  | .ok _ => false
  | .err _ => true

/-! ## Writer (`writer.rs`)

A `Writer` owns a grow-on-append byte buffer; we represent the buffer
directly as the byte list written so far. -/

/-- `Writer::write_u8`: push one byte (the `u8` type bound becomes `% 256`). -/
def writeU8 (w : List Nat) (v : Nat) : List Nat := w ++ [v % 256]

/-- `Writer::write_u16`: little-endian 16-bit write. -/
def writeU16 (w : List Nat) (v : Nat) : List Nat :=
  w ++ [v % 256, v / 2 ^ 8 % 256]

/-- `Writer::write_u32`: little-endian 32-bit write. -/
def writeU32 (w : List Nat) (v : Nat) : List Nat :=
  w ++ [v % 256, v / 2 ^ 8 % 256, v / 2 ^ 16 % 256, v / 2 ^ 24 % 256]

/-- `Writer::write_u64`: little-endian 64-bit write. -/
def writeU64 (w : List Nat) (v : Nat) : List Nat :=
  w ++ [v % 256, v / 2 ^ 8 % 256, v / 2 ^ 16 % 256, v / 2 ^ 24 % 256,
        v / 2 ^ 32 % 256, v / 2 ^ 40 % 256, v / 2 ^ 48 % 256, v / 2 ^ 56 % 256]

/-- `Writer::write_bytes`: append a byte slice. -/
def writeBytes (w : List Nat) (bs : List Nat) : List Nat := w ++ bs

/-- `Writer::align`: zero-pad up to the next multiple of `alignment`. -/
def writerAlign (w : List Nat) (alignment : Nat) : List Nat :=
  if w.length % alignment ≠ 0 then
    w ++ List.replicate (alignment - w.length % alignment) 0
  else w

/-- `Writer::write_index`: 2- or 4-byte little-endian index depending on the
    `wide` flag (the narrow case truncates with `as u16`, covered by the
    byte-level `% 256` reductions). -/
def writeIndex (w : List Nat) (v : Nat) (wide : Bool) : List Nat :=
  if wide then writeU32 w v else writeU16 w v

/-- `Writer::write_compressed_uint` (ECMA-335 II.23.2): 1-, 2- or 4-byte
    variable-width encoding.  The argument is a `u32` in the source; the
    `as u8` casts are the `% 256` inside `writeU8`. -/
def writeCompressedUint (w : List Nat) (v : Nat) : List Nat :=
  if v < 0x80 then
    writeU8 w v
  else if v < 0x4000 then
    writeU8 (writeU8 w (0x80 ||| (v >>> 8))) v
  else
    writeU8 (writeU8 (writeU8 (writeU8 w (0xC0 ||| (v >>> 24))) (v >>> 16)) (v >>> 8)) v

/-! ## Reader (`reader.rs`) -/

/-- A binary reader: an immutable byte slice plus cursor (`reader.rs`). -/
structure Reader where
  data : List Nat
  pos : Nat
deriving DecidableEq, Repr

/-- `Reader::remaining`. -/
def Reader.remaining (r : Reader) : Nat := r.data.length - r.pos

/-- `Reader::read_u8`. -/
def Reader.readU8 (r : Reader) : Res (Nat × Reader) :=
  if r.pos ≥ r.data.length then
    .err (.unexpectedEof r.pos 1)
  else
    .ok (r.data.getD r.pos 0, ⟨r.data, r.pos + 1⟩)

/-- `Reader::read_bytes`. -/
def Reader.readBytes (r : Reader) (len : Nat) : Res (List Nat × Reader) :=
  if r.pos + len > r.data.length then
    .err (.unexpectedEof r.pos len)
  else
    .ok ((r.data.drop r.pos).take len, ⟨r.data, r.pos + len⟩)

/-- `Reader::read_u16` (little-endian, via `read_bytes`). -/
def Reader.readU16 (r : Reader) : Res (Nat × Reader) :=
  match r.readBytes 2 with
  | .err e => .err e
  | .ok (bs, r') => .ok (bs.getD 0 0 + bs.getD 1 0 * 2 ^ 8, r')

/-- `Reader::read_u32` (little-endian, via `read_bytes`). -/
def Reader.readU32 (r : Reader) : Res (Nat × Reader) :=
  match r.readBytes 4 with
  | .err e => .err e
  | .ok (bs, r') =>
    .ok (bs.getD 0 0 + bs.getD 1 0 * 2 ^ 8 + bs.getD 2 0 * 2 ^ 16 + bs.getD 3 0 * 2 ^ 24, r')

/-- `Reader::peek_u8`.  Modelled from the spec: the method is called from
    `signature.rs` but its body is not among the provided sources; §4.1 says
    it returns one byte without advancing and fails with `UnexpectedEof`
    past the buffer. -/
def Reader.peekU8 (r : Reader) : Res Nat :=
  if r.pos ≥ r.data.length then
    .err (.unexpectedEof r.pos 1)
  else
    .ok (r.data.getD r.pos 0)

/-- `Reader::read_compressed_uint` (ECMA-335 II.23.2.) -/
def Reader.readCompressedUint (r : Reader) : Res (Nat × Reader) :=
  let start := r.pos
  match r.readU8 with
  | .err e => .err e
  | .ok (first, r1) =>
    if first &&& 0x80 = 0 then
      .ok (first, r1)
    else if first &&& 0xC0 = 0x80 then
      match r1.readU8 with
      | .err e => .err e
      | .ok (second, r2) => .ok ((first &&& 0x3F) <<< 8 ||| second, r2)
    else if first &&& 0xE0 = 0xC0 then
      match r1.readBytes 3 with
      | .err e => .err e
      | .ok (bs, r2) =>
        .ok ((first &&& 0x1F) <<< 24 ||| bs.getD 0 0 <<< 16 ||| bs.getD 1 0 <<< 8 ||| bs.getD 2 0,
             r2)
    else
      .err (.invalidCompressedInt start)

/-- `Reader::read_compressed_int`.  Modelled from the spec: the signed
    variant is called from `signature.rs` but its body is not among the
    provided sources; §4.2 says it reads the unsigned encoding and applies
    the sign-bit rotation, the low bit being the sign. -/
def Reader.readCompressedInt (r : Reader) : Res (Int × Reader) :=
  match r.readCompressedUint with
  | .err e => .err e
  | .ok (u, r') =>
    .ok (if u % 2 = 1 then -((u >>> 1 : Nat) : Int) - 1 else ((u >>> 1 : Nat) : Int), r')

/-! ## Table identities (`tables/table_id.rs`) -/

/-- Modelled from the spec: the enum `TableId` lives in `tables/table_id.rs`,
    which is not among the provided sources (only its callers are).  §3 of the
    spec fixes the 45 table names and their numeric IDs 0x00–0x2C. -/
inductive TableId where
  | module | typeRef | typeDef | fieldPtr | field | methodPtr | methodDef
  | paramPtr | param | interfaceImpl | memberRef | constant | customAttribute
  | fieldMarshal | declSecurity | classLayout | fieldLayout | standAloneSig
  | eventMap | eventPtr | event | propertyMap | propertyPtr | property
  | methodSemantics | methodImpl | moduleRef | typeSpec | implMap | fieldRva
  | encLog | encMap | assembly | assemblyProcessor | assemblyOs | assemblyRef
  | assemblyRefProcessor | assemblyRefOs | file | exportedType
  | manifestResource | nestedClass | genericParam | methodSpec
  | genericParamConstraint
deriving DecidableEq, Repr

/-- Modelled from the spec: numeric discriminant of each table (`TableId as
    u8` / `as usize` in the source), fixed by §3 of the spec. -/
def TableId.toNat : TableId → Nat
  | .module => 0x00 | .typeRef => 0x01 | .typeDef => 0x02 | .fieldPtr => 0x03
  | .field => 0x04 | .methodPtr => 0x05 | .methodDef => 0x06 | .paramPtr => 0x07
  | .param => 0x08 | .interfaceImpl => 0x09 | .memberRef => 0x0A
  | .constant => 0x0B | .customAttribute => 0x0C | .fieldMarshal => 0x0D
  | .declSecurity => 0x0E | .classLayout => 0x0F | .fieldLayout => 0x10
  | .standAloneSig => 0x11 | .eventMap => 0x12 | .eventPtr => 0x13
  | .event => 0x14 | .propertyMap => 0x15 | .propertyPtr => 0x16
  | .property => 0x17 | .methodSemantics => 0x18 | .methodImpl => 0x19
  | .moduleRef => 0x1A | .typeSpec => 0x1B | .implMap => 0x1C
  | .fieldRva => 0x1D | .encLog => 0x1E | .encMap => 0x1F | .assembly => 0x20
  | .assemblyProcessor => 0x21 | .assemblyOs => 0x22 | .assemblyRef => 0x23
  | .assemblyRefProcessor => 0x24 | .assemblyRefOs => 0x25 | .file => 0x26
  | .exportedType => 0x27 | .manifestResource => 0x28 | .nestedClass => 0x29
  | .genericParam => 0x2A | .methodSpec => 0x2B
  | .genericParamConstraint => 0x2C

/-- Modelled from the spec: `TableId::from_u8`, inverse of the discriminant
    (fails for values that are not table IDs). -/
def TableId.fromU8 (v : Nat) : Option TableId :=
  match v with
  | 0x00 => some .module | 0x01 => some .typeRef | 0x02 => some .typeDef
  | 0x03 => some .fieldPtr | 0x04 => some .field | 0x05 => some .methodPtr
  | 0x06 => some .methodDef | 0x07 => some .paramPtr | 0x08 => some .param
  | 0x09 => some .interfaceImpl | 0x0A => some .memberRef
  | 0x0B => some .constant | 0x0C => some .customAttribute
  | 0x0D => some .fieldMarshal | 0x0E => some .declSecurity
  | 0x0F => some .classLayout | 0x10 => some .fieldLayout
  | 0x11 => some .standAloneSig | 0x12 => some .eventMap
  | 0x13 => some .eventPtr | 0x14 => some .event | 0x15 => some .propertyMap
  | 0x16 => some .propertyPtr | 0x17 => some .property
  | 0x18 => some .methodSemantics | 0x19 => some .methodImpl
  | 0x1A => some .moduleRef | 0x1B => some .typeSpec | 0x1C => some .implMap
  | 0x1D => some .fieldRva | 0x1E => some .encLog | 0x1F => some .encMap
  | 0x20 => some .assembly | 0x21 => some .assemblyProcessor
  | 0x22 => some .assemblyOs | 0x23 => some .assemblyRef
  | 0x24 => some .assemblyRefProcessor | 0x25 => some .assemblyRefOs
  | 0x26 => some .file | 0x27 => some .exportedType
  | 0x28 => some .manifestResource | 0x29 => some .nestedClass
  | 0x2A => some .genericParam | 0x2B => some .methodSpec
  | 0x2C => some .genericParamConstraint
  | _ => none

/-! ## Coded indices (`tables/coded_index.rs`) -/

/-- `CodedIndexKind`: the 13 coded-index schemes. -/
inductive CodedIndexKind where
  | typeDefOrRef | hasConstant | hasCustomAttribute | hasFieldMarshal
  | hasDeclSecurity | memberRefParent | hasSemantics | methodDefOrRef
  | memberForwarded | implementation | customAttributeType | resolutionScope
  | typeOrMethodDef
deriving DecidableEq, Repr

/-- `CodedIndexKind::tag_bits`. -/
def CodedIndexKind.tagBits : CodedIndexKind → Nat
  | .typeDefOrRef => 2
  | .hasConstant => 2
  | .hasCustomAttribute => 5
  | .hasFieldMarshal => 1
  | .hasDeclSecurity => 2
  | .memberRefParent => 3
  | .hasSemantics => 1
  | .methodDefOrRef => 1
  | .memberForwarded => 1
  | .implementation => 2
  | .customAttributeType => 3
  | .resolutionScope => 2
  | .typeOrMethodDef => 1

/-- `CodedIndexKind::tables`: the ordered target-table list of each scheme
    (`None` entries are unused tag slots). -/
def CodedIndexKind.tables : CodedIndexKind → List (Option TableId)
  | .typeDefOrRef => [some .typeDef, some .typeRef, some .typeSpec]
  | .hasConstant => [some .field, some .param, some .property]
  | .hasCustomAttribute =>
      [some .methodDef, some .field, some .typeRef, some .typeDef, some .param,
       some .interfaceImpl, some .memberRef, some .module, none, some .property,
       some .event, some .standAloneSig, some .moduleRef, some .typeSpec,
       some .assembly, some .assemblyRef, some .file, some .exportedType,
       some .manifestResource, some .genericParam, some .genericParamConstraint,
       some .methodSpec]
  | .hasFieldMarshal => [some .field, some .param]
  | .hasDeclSecurity => [some .typeDef, some .methodDef, some .assembly]
  | .memberRefParent =>
      [some .typeDef, some .typeRef, some .moduleRef, some .methodDef,
       some .typeSpec]
  | .hasSemantics => [some .event, some .property]
  | .methodDefOrRef => [some .methodDef, some .memberRef]
  | .memberForwarded => [some .field, some .methodDef]
  | .implementation => [some .file, some .assemblyRef, some .exportedType]
  | .customAttributeType => [none, none, some .methodDef, some .memberRef, none]
  | .resolutionScope =>
      [some .module, some .moduleRef, some .assemblyRef, some .typeRef]
  | .typeOrMethodDef => [some .typeDef, some .methodDef]

/-- `CodedIndexKind::max_small_rows`: `1u32 << (16 - tag_bits)`. -/
def CodedIndexKind.maxSmallRows (k : CodedIndexKind) : Nat :=
  1 <<< (16 - k.tagBits)

/-- `CodedIndex`: a decoded coded index (`table` is `None` for unused tag
    slots, `row` is 1-based with 0 meaning null). -/
structure CodedIndex where
  table : Option TableId
  row : Nat
deriving DecidableEq, Repr

/-- `CodedIndex::decode`. -/
def CodedIndex.decode (kind : CodedIndexKind) (value : Nat) : CodedIndex :=
  let tagBits := kind.tagBits
  let tagMask := (1 <<< tagBits) - 1
  let tag := value &&& tagMask
  let row := value >>> tagBits
  { table := (kind.tables).getD tag none, row := row }

/-- `CodedIndex::encode`: `tables.position(== self.table).unwrap_or(0)` for
    the tag; the `u32` shift `self.row << tag_bits` wraps, hence `% 2 ^ 32`. -/
def CodedIndex.encode (ci : CodedIndex) (kind : CodedIndexKind) : Nat :=
  let tag := ((kind.tables).findIdx? (fun t => t == ci.table)).getD 0
  (ci.row <<< kind.tagBits) % 2 ^ 32 ||| tag

/-! ## Layout context (`tables/context.rs`) -/

/-- `TableContext`: heap-size flags plus the 64 per-table row counts (the
    Rust `[u32; 64]` array is a 64-long list here, read with `getD`). -/
structure TableContext where
  heapSizes : Nat
  rowCounts : List Nat
deriving DecidableEq, Repr

namespace TableContext

/-- `TableContext::wide_string_indices`. -/
def wideStringIndices (c : TableContext) : Bool := c.heapSizes &&& 0x01 ≠ 0

/-- `TableContext::wide_guid_indices`. -/
def wideGuidIndices (c : TableContext) : Bool := c.heapSizes &&& 0x02 ≠ 0

/-- `TableContext::wide_blob_indices`. -/
def wideBlobIndices (c : TableContext) : Bool := c.heapSizes &&& 0x04 ≠ 0

/-- `TableContext::string_index_size`. -/
def stringIndexSize (c : TableContext) : Nat :=
  if c.wideStringIndices then 4 else 2

/-- `TableContext::guid_index_size`. -/
def guidIndexSize (c : TableContext) : Nat :=
  if c.wideGuidIndices then 4 else 2

/-- `TableContext::blob_index_size`. -/
def blobIndexSize (c : TableContext) : Nat :=
  if c.wideBlobIndices then 4 else 2

/-- `TableContext::row_count`. -/
def rowCount (c : TableContext) (t : TableId) : Nat :=
  c.rowCounts.getD t.toNat 0

/-- `TableContext::wide_table_index`. -/
def wideTableIndex (c : TableContext) (t : TableId) : Bool :=
  c.rowCounts.getD t.toNat 0 > 0xFFFF

/-- `TableContext::table_index_size`. -/
def tableIndexSize (c : TableContext) (t : TableId) : Nat :=
  if c.wideTableIndex t then 4 else 2

/-- `TableContext::wide_coded_index`. -/
def wideCodedIndex (c : TableContext) (k : CodedIndexKind) : Bool :=
  let maxRows := k.maxSmallRows
  ((k.tables).filterMap id).any (fun t => c.rowCounts.getD t.toNat 0 ≥ maxRows)

/-- `TableContext::coded_index_size`. -/
def codedIndexSize (c : TableContext) (k : CodedIndexKind) : Nat :=
  if c.wideCodedIndex k then 4 else 2

/-- `TableContext::row_size`: byte width of one row of `table` under this
    context.  The final catch-all arm returns 0, exactly as in the source
    (its comment reads "Remaining tables return 0 (not implemented)"). -/
def rowSize (c : TableContext) (table : TableId) : Nat :=
  match table with
  | .module => 2 + c.stringIndexSize * 2 + c.guidIndexSize * 3
  | .typeRef => c.codedIndexSize .resolutionScope + c.stringIndexSize * 2
  | .typeDef =>
      4 + c.stringIndexSize * 2 + c.codedIndexSize .typeDefOrRef
        + c.tableIndexSize .field + c.tableIndexSize .methodDef
  | .field => 2 + c.stringIndexSize + c.blobIndexSize
  | .methodDef =>
      4 + 2 + 2 + c.stringIndexSize + c.blobIndexSize + c.tableIndexSize .param
  | .param => 2 + 2 + c.stringIndexSize
  | .interfaceImpl => c.tableIndexSize .typeDef + c.codedIndexSize .typeDefOrRef
  | .memberRef =>
      c.codedIndexSize .memberRefParent + c.stringIndexSize + c.blobIndexSize
  | .constant => 2 + c.codedIndexSize .hasConstant + c.blobIndexSize
  | .customAttribute =>
      c.codedIndexSize .hasCustomAttribute + c.codedIndexSize .customAttributeType
        + c.blobIndexSize
  | .assembly => 4 + 2 * 4 + 4 + c.blobIndexSize + c.stringIndexSize * 2
  | .assemblyRef => 2 * 4 + 4 + c.blobIndexSize * 2 + c.stringIndexSize * 2
  | .fieldMarshal => c.codedIndexSize .hasFieldMarshal + c.blobIndexSize
  | .declSecurity => 2 + c.codedIndexSize .hasDeclSecurity + c.blobIndexSize
  | .classLayout => 2 + 4 + c.tableIndexSize .typeDef
  | .fieldLayout => 4 + c.tableIndexSize .field
  | .standAloneSig => c.blobIndexSize
  | .eventMap => c.tableIndexSize .typeDef + c.tableIndexSize .event
  | .event => 2 + c.stringIndexSize + c.codedIndexSize .typeDefOrRef
  | .propertyMap => c.tableIndexSize .typeDef + c.tableIndexSize .property
  | .property => 2 + c.stringIndexSize + c.blobIndexSize
  | .methodSemantics =>
      2 + c.tableIndexSize .methodDef + c.codedIndexSize .hasSemantics
  | .methodImpl => c.tableIndexSize .typeDef + c.codedIndexSize .methodDefOrRef * 2
  | .moduleRef => c.stringIndexSize
  | .typeSpec => c.blobIndexSize
  | .implMap =>
      2 + c.codedIndexSize .memberForwarded + c.stringIndexSize
        + c.tableIndexSize .moduleRef
  | .fieldRva => 4 + c.tableIndexSize .field
  | .nestedClass => c.tableIndexSize .typeDef * 2
  | .genericParam =>
      2 + 2 + c.codedIndexSize .typeOrMethodDef + c.stringIndexSize
  | .methodSpec => c.codedIndexSize .methodDefOrRef + c.blobIndexSize
  | .genericParamConstraint =>
      c.tableIndexSize .genericParam + c.codedIndexSize .typeDefOrRef
  | _ => 0

end TableContext

/-! ## Heaps (`heaps/strings.rs`, `heaps/blob.rs`, `heaps/us.rs`,
`heaps/guid.rs`)

Rust strings (`&str` / `String`) are embedded as their UTF-8 byte lists; the
validity check done by `std::str::from_utf8` becomes the executable
`utf8Valid` predicate below.  The `HashMap` dedup indexes become association
lists looked up by key equality (insertion conses, lookup takes the first
match, which matches map overwrite semantics). -/

/-- Whether a byte list is valid UTF-8, mirroring the checks performed by
    `std::str::from_utf8` (continuation ranges, overlong forms, surrogates
    and the 0x10FFFF ceiling). -/
def utf8Valid : List Nat → Bool
  | [] => true
  | b :: rest =>
    if b < 0x80 then utf8Valid rest
    else if 0xC2 ≤ b ∧ b ≤ 0xDF then
      match rest with
      | c1 :: rest' => (0x80 ≤ c1 ∧ c1 ≤ 0xBF) ∧ utf8Valid rest'
      | [] => false
    else if 0xE0 ≤ b ∧ b ≤ 0xEF then
      match rest with
      | c1 :: c2 :: rest' =>
        (if b = 0xE0 then 0xA0 ≤ c1 ∧ c1 ≤ 0xBF
         else if b = 0xED then 0x80 ≤ c1 ∧ c1 ≤ 0x9F
         else 0x80 ≤ c1 ∧ c1 ≤ 0xBF) ∧
        (0x80 ≤ c2 ∧ c2 ≤ 0xBF) ∧ utf8Valid rest'
      | _ => false
    else if 0xF0 ≤ b ∧ b ≤ 0xF4 then
      match rest with
      | c1 :: c2 :: c3 :: rest' =>
        (if b = 0xF0 then 0x90 ≤ c1 ∧ c1 ≤ 0xBF
         else if b = 0xF4 then 0x80 ≤ c1 ∧ c1 ≤ 0x8F
         else 0x80 ≤ c1 ∧ c1 ≤ 0xBF) ∧
        (0x80 ≤ c2 ∧ c2 ≤ 0xBF) ∧ (0x80 ≤ c3 ∧ c3 ≤ 0xBF) ∧ utf8Valid rest'
      | _ => false
    else false

/-- Association-list lookup standing in for `HashMap::get`. -/
def mapLookup {κ : Type} [DecidableEq κ] (m : List (κ × Nat)) (k : κ) : Option Nat :=
  match m.find? (fun p => p.1 == k) with
  | some p => some p.2
  | none => none

/-- The `#Strings` heap (`heaps/strings.rs`): raw data plus the dedup map. -/
structure StringsHeap where
  data : List Nat
  map : List (List Nat × Nat)
deriving DecidableEq, Repr

namespace StringsHeap

/-- `StringsHeap::new`: one null byte, the empty string mapped to offset 0. -/
def new : StringsHeap := ⟨[0], [([], 0)]⟩

/-- `StringsHeap::parse`: adopt raw bytes, dedup map left empty. -/
def parse (data : List Nat) : StringsHeap := ⟨data, []⟩

/-- `StringsHeap::get`: bounds check, scan to the next null byte, UTF-8
    validate (`from_utf8`), return the byte run. -/
def get (h : StringsHeap) (offset : Nat) : Res (List Nat) :=
  if offset ≥ h.data.length then
    .err (.invalidString offset)
  else
    match (h.data.drop offset).findIdx? (fun b => b == 0) with
    | none => .err (.invalidString offset)
    | some e =>
      let bytes := (h.data.drop offset).take e
      if utf8Valid bytes then .ok bytes else .err (.invalidString offset)

/-- `StringsHeap::add`: O(1) dedup via the map; on a miss append the bytes
    plus a null terminator and record the new offset (`data.len() as u32`,
    hence `% 2 ^ 32`). -/
def add (h : StringsHeap) (s : List Nat) : Nat × StringsHeap :=
  match mapLookup h.map s with
  | some offset => (offset, h)
  | none =>
    let offset := h.data.length % 2 ^ 32
    (offset, ⟨h.data ++ s ++ [0], (s, offset) :: h.map⟩)

/-- `StringsHeap::size`. -/
def size (h : StringsHeap) : Nat := h.data.length

/-- `StringsHeap::uses_wide_indices`. -/
def usesWideIndices (h : StringsHeap) : Bool := h.data.length > 0xFFFF

/-- `StringsHeap::write_to`. -/
def writeTo (h : StringsHeap) (w : List Nat) : List Nat := writeBytes w h.data

end StringsHeap

/-- The `#Blob` heap (`heaps/blob.rs`): raw data plus the dedup map. -/
structure BlobHeap where
  data : List Nat
  map : List (List Nat × Nat)
deriving DecidableEq, Repr

namespace BlobHeap

/-- `BlobHeap::new`: one null byte, the empty blob mapped to offset 0. -/
def new : BlobHeap := ⟨[0], [([], 0)]⟩

/-- `BlobHeap::parse`. -/
def parse (data : List Nat) : BlobHeap := ⟨data, []⟩

/-- `BlobHeap::get`: read the compressed length at `offset`, bounds-check the
    payload, return it. -/
def get (h : BlobHeap) (offset : Nat) : Res (List Nat) :=
  if offset ≥ h.data.length then
    .err (.invalidBlob offset)
  else
    match Reader.readCompressedUint ⟨h.data.drop offset, 0⟩ with
    | .err e => .err e
    | .ok (len, r) =>
      let headerSize := r.pos
      let blobStart := offset + headerSize
      let blobEnd := blobStart + len
      if blobEnd > h.data.length then .err (.invalidBlob offset)
      else .ok ((h.data.drop blobStart).take len)

/-- `BlobHeap::add`: O(1) dedup via the map; on a miss append the compressed
    length (`blob.len() as u32`) then the payload. -/
def add (h : BlobHeap) (b : List Nat) : Nat × BlobHeap :=
  match mapLookup h.map b with
  | some offset => (offset, h)
  | none =>
    let offset := h.data.length % 2 ^ 32
    let withLen := h.data ++ writeCompressedUint [] (b.length % 2 ^ 32)
    (offset, ⟨withLen ++ b, (b, offset) :: h.map⟩)

/-- `BlobHeap::size`. -/
def size (h : BlobHeap) : Nat := h.data.length

/-- `BlobHeap::uses_wide_indices`. -/
def usesWideIndices (h : BlobHeap) : Bool := h.data.length > 0xFFFF

/-- `BlobHeap::write_to`. -/
def writeTo (h : BlobHeap) (w : List Nat) : List Nat := writeBytes w h.data

end BlobHeap

/-- The `#US` heap (`heaps/us.rs`): raw data only (no dedup map). -/
structure UserStringsHeap where
  data : List Nat
deriving DecidableEq, Repr

namespace UserStringsHeap

/-- `UserStringsHeap::new`. -/
def new : UserStringsHeap := ⟨[0]⟩

/-- `UserStringsHeap::parse`. -/
def parse (data : List Nat) : UserStringsHeap := ⟨data⟩

/-- The per-code-unit "has special" test from `UserStringsHeap::add`. -/
def hasSpecialUnit (c : Nat) : Bool :=
  c > 0x7F ∨ c = 0x01 ∨ c = 0x02 ∨ c = 0x03 ∨ c = 0x04 ∨ c = 0x05 ∨ c = 0x06
    ∨ c = 0x07 ∨ c = 0x08 ∨ (0x0E ≤ c ∧ c ≤ 0x1F) ∨ c = 0x27 ∨ c = 0x2D

/-- `UserStringsHeap::add`, taking the string already converted to its
    UTF-16 code units (`s.encode_utf16().collect()` in the source): append
    the compressed blob length, the UTF-16LE bytes, and the flag byte. -/
def add (h : UserStringsHeap) (utf16 : List Nat) : Nat × UserStringsHeap :=
  let offset := h.data.length % 2 ^ 32
  let byteLen := utf16.length * 2
  let hasSpecial := utf16.any hasSpecialUnit
  let blobLen := byteLen + 1
  let data1 := h.data ++ writeCompressedUint [] (blobLen % 2 ^ 32)
  let data2 := data1 ++ (utf16.flatMap (fun c => [c % 256, c / 2 ^ 8 % 256]))
  (offset, ⟨data2 ++ [if hasSpecial then 1 else 0]⟩)

/-- `UserStringsHeap::size`. -/
def size (h : UserStringsHeap) : Nat := h.data.length

/-- `UserStringsHeap::write_to`. -/
def writeTo (h : UserStringsHeap) (w : List Nat) : List Nat := writeBytes w h.data

end UserStringsHeap

/-- The `#GUID` heap (`heaps/guid.rs`): raw 16-byte records. -/
structure GuidHeap where
  data : List Nat
deriving DecidableEq, Repr

namespace GuidHeap

/-- `GuidHeap::new`. -/
def new : GuidHeap := ⟨[]⟩

/-- `GuidHeap::parse`. -/
def parse (data : List Nat) : GuidHeap := ⟨data⟩

/-- `GuidHeap::get`: index 0 is the null GUID, index n ≥ 1 reads bytes
    `(n-1)*16 .. n*16`. -/
def get (h : GuidHeap) (index : Nat) : Res (List Nat) :=
  if index = 0 then
    .ok (List.replicate 16 0)
  else
    let offset := (index - 1) * 16
    if offset + 16 > h.data.length then .err (.invalidGuidIndex index)
    else .ok ((h.data.drop offset).take 16)

/-- `GuidHeap::add`: append 16 bytes, return the 1-based index
    (`index as u32`). -/
def add (h : GuidHeap) (g : List Nat) : Nat × GuidHeap :=
  let index := h.data.length / 16 + 1
  (index % 2 ^ 32, ⟨h.data ++ g⟩)

/-- `GuidHeap::count`. -/
def count (h : GuidHeap) : Nat := h.data.length / 16

/-- `GuidHeap::size`. -/
def size (h : GuidHeap) : Nat := h.data.length

/-- `GuidHeap::uses_wide_indices`. -/
def usesWideIndices (h : GuidHeap) : Bool := h.count > 0xFFFF

/-- `GuidHeap::write_to`. -/
def writeTo (h : GuidHeap) (w : List Nat) : List Nat := writeBytes w h.data

end GuidHeap

/-! ## Stream headers and metadata root (`stream.rs`, `root.rs`)

Stream names are ASCII strings in the source; they are embedded as their
byte lists. -/

/-- Stream-name constant `#~` (tables stream). -/
def nameTables : List Nat := [0x23, 0x7E]

/-- Stream-name constant `#-` (uncompressed tables stream). -/
def nameTablesUncompressed : List Nat := [0x23, 0x2D]

/-- Stream-name constant `#Strings`. -/
def nameStrings : List Nat := [0x23, 0x53, 0x74, 0x72, 0x69, 0x6E, 0x67, 0x73]

/-- Stream-name constant `#US`. -/
def nameUserStrings : List Nat := [0x23, 0x55, 0x53]

/-- Stream-name constant `#GUID`. -/
def nameGuid : List Nat := [0x23, 0x47, 0x55, 0x49, 0x44]

/-- Stream-name constant `#Blob`. -/
def nameBlob : List Nat := [0x23, 0x42, 0x6C, 0x6F, 0x62]

/-- `StreamHeader`: offset, size and null-terminated 4-byte-aligned name. -/
structure StreamHeader where
  offset : Nat
  size : Nat
  name : List Nat
deriving DecidableEq, Repr

namespace StreamHeader

/-- `StreamHeader::write`: offset, size, name with terminator, zero padding
    to the next 4-byte boundary. -/
def write (s : StreamHeader) (w : List Nat) : List Nat :=
  let w1 := writeU32 w s.offset
  let w2 := writeU32 w1 s.size
  let w3 := w2 ++ s.name ++ [0]
  let nameLenWithNull := s.name.length + 1
  let padding := (4 - nameLenWithNull % 4) % 4
  w3 ++ List.replicate padding 0

/-- `StreamHeader::serialized_size`. -/
def serializedSize (s : StreamHeader) : Nat :=
  let nameLenWithNull := s.name.length + 1
  let padding := (4 - nameLenWithNull % 4) % 4
  8 + nameLenWithNull + padding

/-- `StreamHeader::is_tables`. -/
def isTables (s : StreamHeader) : Bool :=
  s.name == nameTables ∨ s.name == nameTablesUncompressed

end StreamHeader

/-- `METADATA_SIGNATURE`: the "BSJB" sentinel. -/
def metadataSignature : Nat := 0x424A5342

/-- `MetadataRoot`: the BSJB header (`root.rs`). -/
structure MetadataRoot where
  majorVersion : Nat
  minorVersion : Nat
  reserved : Nat
  version : List Nat
  flags : Nat
  streams : List StreamHeader
deriving DecidableEq, Repr

namespace MetadataRoot

/-- The padded length of the version string:
    `(version_len_with_null + 3) & !3`, i.e. round `len + 1` up to a multiple
    of four (the usize mask `!3` clears the two low bits). -/
def paddedVersionLen (version : List Nat) : Nat :=
  (version.length + 1 + 3) / 4 * 4

/-- `MetadataRoot::write_to`: signature, versions, reserved word, padded
    version string with its length field, flags, stream count and headers. -/
def writeTo (root : MetadataRoot) (w : List Nat) : List Nat :=
  let w1 := writeU32 w metadataSignature
  let w2 := writeU16 w1 root.majorVersion
  let w3 := writeU16 w2 root.minorVersion
  let w4 := writeU32 w3 root.reserved
  let versionLenWithNull := root.version.length + 1
  let paddedLen := paddedVersionLen root.version
  let w5 := writeU32 w4 paddedLen
  let w6 := w5 ++ root.version ++ [0]
  let w7 := w6 ++ List.replicate (paddedLen - versionLenWithNull) 0
  let w8 := writeU16 w7 root.flags
  let w9 := writeU16 w8 (root.streams.length % 2 ^ 16)
  root.streams.foldl (fun acc s => s.write acc) w9

/-- `MetadataRoot::header_size`: root-header byte count excluding stream
    data. -/
def headerSize (root : MetadataRoot) : Nat :=
  let paddedLen := paddedVersionLen root.version
  let base := 4 + 2 + 2 + 4 + 4 + paddedLen + 2 + 2
  base + (root.streams.map StreamHeader.serializedSize).sum

/-- `MetadataRoot::find_stream`. -/
def findStream (root : MetadataRoot) (name : List Nat) : Option StreamHeader :=
  root.streams.find? (fun s => s.name == name)

/-- `MetadataRoot::tables_stream`. -/
def tablesStream (root : MetadataRoot) : Option StreamHeader :=
  root.streams.find? (fun s => s.isTables)

end MetadataRoot

/-! ## Tables-stream header (`tables/header.rs`) -/

/-- `TablesHeader`: the tables-stream prolog. `valid` and `sorted` are u64
    bitmasks; the `[u32; 64]` row-count array is a 64-long list. -/
structure TablesHeader where
  reserved : Nat
  majorVersion : Nat
  minorVersion : Nat
  heapSizes : Nat
  reserved2 : Nat
  valid : Nat
  sorted : Nat
  rowCounts : List Nat
deriving DecidableEq, Repr

namespace TablesHeader

/-- `TablesHeader::write_to`: the 24-byte prolog followed by one u32 row
    count per set bit of `valid`. -/
def writeTo (h : TablesHeader) (w : List Nat) : List Nat :=
  let w1 := writeU32 w h.reserved
  let w2 := writeU8 w1 h.majorVersion
  let w3 := writeU8 w2 h.minorVersion
  let w4 := writeU8 w3 h.heapSizes
  let w5 := writeU8 w4 h.reserved2
  let w6 := writeU64 w5 h.valid
  let w7 := writeU64 w6 h.sorted
  (List.range 64).foldl
    (fun acc i =>
      if h.valid &&& (1 <<< i) ≠ 0 then writeU32 acc (h.rowCounts.getD i 0)
      else acc)
    w7

/-- `TablesHeader::set_row_count`: update both the count (a `u32`, hence
    `% 2 ^ 32`) and the matching `valid` bit. -/
def setRowCount (h : TablesHeader) (table : TableId) (cnt : Nat) : TablesHeader :=
  let bit := 1 <<< table.toNat
  let valid' :=
    if cnt % 2 ^ 32 > 0 then h.valid ||| bit
    else h.valid &&& (0xFFFFFFFFFFFFFFFF ^^^ bit)
  { h with valid := valid', rowCounts := h.rowCounts.set table.toNat (cnt % 2 ^ 32) }

/-- `TablesHeader::context`. -/
def context (h : TablesHeader) : TableContext := ⟨h.heapSizes, h.rowCounts⟩

/-- `TablesHeader::size`: 24 bytes plus 4 per set `valid` bit
    (`count_ones`; `valid` is a u64 so only bits 0–63 exist). -/
def size (h : TablesHeader) : Nat :=
  24 + ((List.range 64).countP (fun i => h.valid &&& (1 <<< i) ≠ 0)) * 4

/-- `TablesHeader::tables`: the valid tables with their row counts, in ID
    order (IDs without a `TableId` are skipped by `from_u8`). -/
def tables (h : TablesHeader) : List (TableId × Nat) :=
  (List.range 64).filterMap
    (fun i =>
      if h.valid &&& (1 <<< i) ≠ 0 then
        (TableId.fromU8 i).map (fun t => (t, h.rowCounts.getD i 0))
      else none)

end TablesHeader

/-! ## Table rows (`tables/rows.rs`)

Each row type carries its on-disk fields; `write` mirrors the Rust `write`
method, emitting fields in order under the layout context.  The five `*Ptr`
row types and the two Edit-and-Continue row types are imported by
`metadata.rs` but their definitions are not among the provided sources
("Modelled from the spec" below). -/

/-- `ModuleRow` (0x00). -/
structure ModuleRow where
  generation : Nat
  name : Nat
  mvid : Nat
  encId : Nat
  encBaseId : Nat
deriving DecidableEq, Repr

/-- `ModuleRow::write`. -/
def ModuleRow.write (r : ModuleRow) (w : List Nat) (c : TableContext) : List Nat :=
  let w1 := writeU16 w r.generation
  let w2 := writeIndex w1 r.name c.wideStringIndices
  let w3 := writeIndex w2 r.mvid c.wideGuidIndices
  let w4 := writeIndex w3 r.encId c.wideGuidIndices
  writeIndex w4 r.encBaseId c.wideGuidIndices

/-- `TypeRefRow` (0x01). -/
structure TypeRefRow where
  resolutionScope : CodedIndex
  typeName : Nat
  typeNamespace : Nat
deriving DecidableEq, Repr

/-- `TypeRefRow::write`. -/
def TypeRefRow.write (r : TypeRefRow) (w : List Nat) (c : TableContext) : List Nat :=
  let wide := c.wideCodedIndex .resolutionScope
  let w1 := writeIndex w (r.resolutionScope.encode .resolutionScope) wide
  let w2 := writeIndex w1 r.typeName c.wideStringIndices
  writeIndex w2 r.typeNamespace c.wideStringIndices

/-- `TypeDefRow` (0x02).  The `extends` field is renamed `extendsIdx` because
    `extends` is a Lean keyword. -/
structure TypeDefRow where
  flags : Nat
  typeName : Nat
  typeNamespace : Nat
  extendsIdx : CodedIndex
  fieldList : Nat
  methodList : Nat
deriving DecidableEq, Repr

/-- `TypeDefRow::write`. -/
def TypeDefRow.write (r : TypeDefRow) (w : List Nat) (c : TableContext) : List Nat :=
  let w1 := writeU32 w r.flags
  let w2 := writeIndex w1 r.typeName c.wideStringIndices
  let w3 := writeIndex w2 r.typeNamespace c.wideStringIndices
  let w4 := writeIndex w3 (r.extendsIdx.encode .typeDefOrRef) (c.wideCodedIndex .typeDefOrRef)
  let w5 := writeIndex w4 r.fieldList (c.wideTableIndex .field)
  writeIndex w5 r.methodList (c.wideTableIndex .methodDef)

/-- `FieldRow` (0x04). -/
structure FieldRow where
  flags : Nat
  name : Nat
  signature : Nat
deriving DecidableEq, Repr

/-- `FieldRow::write`. -/
def FieldRow.write (r : FieldRow) (w : List Nat) (c : TableContext) : List Nat :=
  let w1 := writeU16 w r.flags
  let w2 := writeIndex w1 r.name c.wideStringIndices
  writeIndex w2 r.signature c.wideBlobIndices

/-- `MethodDefRow` (0x06). -/
structure MethodDefRow where
  rva : Nat
  implFlags : Nat
  flags : Nat
  name : Nat
  signature : Nat
  paramList : Nat
deriving DecidableEq, Repr

/-- `MethodDefRow::write`. -/
def MethodDefRow.write (r : MethodDefRow) (w : List Nat) (c : TableContext) : List Nat :=
  let w1 := writeU32 w r.rva
  let w2 := writeU16 w1 r.implFlags
  let w3 := writeU16 w2 r.flags
  let w4 := writeIndex w3 r.name c.wideStringIndices
  let w5 := writeIndex w4 r.signature c.wideBlobIndices
  writeIndex w5 r.paramList (c.wideTableIndex .param)

/-- `ParamRow` (0x08). -/
structure ParamRow where
  flags : Nat
  sequence : Nat
  name : Nat
deriving DecidableEq, Repr

/-- `ParamRow::write`. -/
def ParamRow.write (r : ParamRow) (w : List Nat) (c : TableContext) : List Nat :=
  let w1 := writeU16 w r.flags
  let w2 := writeU16 w1 r.sequence
  writeIndex w2 r.name c.wideStringIndices

/-- `InterfaceImplRow` (0x09). -/
structure InterfaceImplRow where
  classIdx : Nat
  interface : CodedIndex
deriving DecidableEq, Repr

/-- `InterfaceImplRow::write`. -/
def InterfaceImplRow.write (r : InterfaceImplRow) (w : List Nat) (c : TableContext) : List Nat :=
  let w1 := writeIndex w r.classIdx (c.wideTableIndex .typeDef)
  writeIndex w1 (r.interface.encode .typeDefOrRef) (c.wideCodedIndex .typeDefOrRef)

/-- `MemberRefRow` (0x0A). -/
structure MemberRefRow where
  classIdx : CodedIndex
  name : Nat
  signature : Nat
deriving DecidableEq, Repr

/-- `MemberRefRow::write`. -/
def MemberRefRow.write (r : MemberRefRow) (w : List Nat) (c : TableContext) : List Nat :=
  let w1 := writeIndex w (r.classIdx.encode .memberRefParent) (c.wideCodedIndex .memberRefParent)
  let w2 := writeIndex w1 r.name c.wideStringIndices
  writeIndex w2 r.signature c.wideBlobIndices

/-- `ConstantRow` (0x0B). -/
structure ConstantRow where
  constantType : Nat
  padding : Nat
  parent : CodedIndex
  value : Nat
deriving DecidableEq, Repr

/-- `ConstantRow::write`. -/
def ConstantRow.write (r : ConstantRow) (w : List Nat) (c : TableContext) : List Nat :=
  let w1 := writeU8 w r.constantType
  let w2 := writeU8 w1 r.padding
  let w3 := writeIndex w2 (r.parent.encode .hasConstant) (c.wideCodedIndex .hasConstant)
  writeIndex w3 r.value c.wideBlobIndices

/-- `CustomAttributeRow` (0x0C). -/
structure CustomAttributeRow where
  parent : CodedIndex
  attrType : CodedIndex
  value : Nat
deriving DecidableEq, Repr

/-- `CustomAttributeRow::write`. -/
def CustomAttributeRow.write (r : CustomAttributeRow) (w : List Nat) (c : TableContext) : List Nat :=
  let w1 := writeIndex w (r.parent.encode .hasCustomAttribute) (c.wideCodedIndex .hasCustomAttribute)
  let w2 := writeIndex w1 (r.attrType.encode .customAttributeType) (c.wideCodedIndex .customAttributeType)
  writeIndex w2 r.value c.wideBlobIndices

/-- `FieldMarshalRow` (0x0D). -/
structure FieldMarshalRow where
  parent : CodedIndex
  nativeType : Nat
deriving DecidableEq, Repr

/-- `FieldMarshalRow::write`. -/
def FieldMarshalRow.write (r : FieldMarshalRow) (w : List Nat) (c : TableContext) : List Nat :=
  let w1 := writeIndex w (r.parent.encode .hasFieldMarshal) (c.wideCodedIndex .hasFieldMarshal)
  writeIndex w1 r.nativeType c.wideBlobIndices

/-- `DeclSecurityRow` (0x0E). -/
structure DeclSecurityRow where
  action : Nat
  parent : CodedIndex
  permissionSet : Nat
deriving DecidableEq, Repr

/-- `DeclSecurityRow::write`. -/
def DeclSecurityRow.write (r : DeclSecurityRow) (w : List Nat) (c : TableContext) : List Nat :=
  let w1 := writeU16 w r.action
  let w2 := writeIndex w1 (r.parent.encode .hasDeclSecurity) (c.wideCodedIndex .hasDeclSecurity)
  writeIndex w2 r.permissionSet c.wideBlobIndices

/-- `ClassLayoutRow` (0x0F). -/
structure ClassLayoutRow where
  packingSize : Nat
  classSize : Nat
  parent : Nat
deriving DecidableEq, Repr

/-- `ClassLayoutRow::write`. -/
def ClassLayoutRow.write (r : ClassLayoutRow) (w : List Nat) (c : TableContext) : List Nat :=
  let w1 := writeU16 w r.packingSize
  let w2 := writeU32 w1 r.classSize
  writeIndex w2 r.parent (c.wideTableIndex .typeDef)

/-- `FieldLayoutRow` (0x10). -/
structure FieldLayoutRow where
  offset : Nat
  field : Nat
deriving DecidableEq, Repr

/-- `FieldLayoutRow::write`. -/
def FieldLayoutRow.write (r : FieldLayoutRow) (w : List Nat) (c : TableContext) : List Nat :=
  let w1 := writeU32 w r.offset
  writeIndex w1 r.field (c.wideTableIndex .field)

/-- `StandAloneSigRow` (0x11). -/
structure StandAloneSigRow where
  signature : Nat
deriving DecidableEq, Repr

/-- `StandAloneSigRow::write`. -/
def StandAloneSigRow.write (r : StandAloneSigRow) (w : List Nat) (c : TableContext) : List Nat :=
  writeIndex w r.signature c.wideBlobIndices

/-- `EventMapRow` (0x12). -/
structure EventMapRow where
  parent : Nat
  eventList : Nat
deriving DecidableEq, Repr

/-- `EventMapRow::write`. -/
def EventMapRow.write (r : EventMapRow) (w : List Nat) (c : TableContext) : List Nat :=
  let w1 := writeIndex w r.parent (c.wideTableIndex .typeDef)
  writeIndex w1 r.eventList (c.wideTableIndex .event)

/-- `EventRow` (0x14). -/
structure EventRow where
  eventFlags : Nat
  name : Nat
  eventType : CodedIndex
deriving DecidableEq, Repr

/-- `EventRow::write`. -/
def EventRow.write (r : EventRow) (w : List Nat) (c : TableContext) : List Nat :=
  let w1 := writeU16 w r.eventFlags
  let w2 := writeIndex w1 r.name c.wideStringIndices
  writeIndex w2 (r.eventType.encode .typeDefOrRef) (c.wideCodedIndex .typeDefOrRef)

/-- `PropertyMapRow` (0x15). -/
structure PropertyMapRow where
  parent : Nat
  propertyList : Nat
deriving DecidableEq, Repr

/-- `PropertyMapRow::write`. -/
def PropertyMapRow.write (r : PropertyMapRow) (w : List Nat) (c : TableContext) : List Nat :=
  let w1 := writeIndex w r.parent (c.wideTableIndex .typeDef)
  writeIndex w1 r.propertyList (c.wideTableIndex .property)

/-- `PropertyRow` (0x17). -/
structure PropertyRow where
  flags : Nat
  name : Nat
  propertyType : Nat
deriving DecidableEq, Repr

/-- `PropertyRow::write`. -/
def PropertyRow.write (r : PropertyRow) (w : List Nat) (c : TableContext) : List Nat :=
  let w1 := writeU16 w r.flags
  let w2 := writeIndex w1 r.name c.wideStringIndices
  writeIndex w2 r.propertyType c.wideBlobIndices

/-- `MethodSemanticsRow` (0x18). -/
structure MethodSemanticsRow where
  semantics : Nat
  method : Nat
  association : CodedIndex
deriving DecidableEq, Repr

/-- `MethodSemanticsRow::write`. -/
def MethodSemanticsRow.write (r : MethodSemanticsRow) (w : List Nat) (c : TableContext) : List Nat :=
  let w1 := writeU16 w r.semantics
  let w2 := writeIndex w1 r.method (c.wideTableIndex .methodDef)
  writeIndex w2 (r.association.encode .hasSemantics) (c.wideCodedIndex .hasSemantics)

/-- `MethodImplRow` (0x19). -/
structure MethodImplRow where
  classIdx : Nat
  methodBody : CodedIndex
  methodDeclaration : CodedIndex
deriving DecidableEq, Repr

/-- `MethodImplRow::write`. -/
def MethodImplRow.write (r : MethodImplRow) (w : List Nat) (c : TableContext) : List Nat :=
  let w1 := writeIndex w r.classIdx (c.wideTableIndex .typeDef)
  let w2 := writeIndex w1 (r.methodBody.encode .methodDefOrRef) (c.wideCodedIndex .methodDefOrRef)
  writeIndex w2 (r.methodDeclaration.encode .methodDefOrRef) (c.wideCodedIndex .methodDefOrRef)

/-- `ModuleRefRow` (0x1A). -/
structure ModuleRefRow where
  name : Nat
deriving DecidableEq, Repr

/-- `ModuleRefRow::write`. -/
def ModuleRefRow.write (r : ModuleRefRow) (w : List Nat) (c : TableContext) : List Nat :=
  writeIndex w r.name c.wideStringIndices

/-- `TypeSpecRow` (0x1B). -/
structure TypeSpecRow where
  signature : Nat
deriving DecidableEq, Repr

/-- `TypeSpecRow::write`. -/
def TypeSpecRow.write (r : TypeSpecRow) (w : List Nat) (c : TableContext) : List Nat :=
  writeIndex w r.signature c.wideBlobIndices

/-- `ImplMapRow` (0x1C). -/
structure ImplMapRow where
  mappingFlags : Nat
  memberForwarded : CodedIndex
  importName : Nat
  importScope : Nat
deriving DecidableEq, Repr

/-- `ImplMapRow::write`. -/
def ImplMapRow.write (r : ImplMapRow) (w : List Nat) (c : TableContext) : List Nat :=
  let w1 := writeU16 w r.mappingFlags
  let w2 := writeIndex w1 (r.memberForwarded.encode .memberForwarded) (c.wideCodedIndex .memberForwarded)
  let w3 := writeIndex w2 r.importName c.wideStringIndices
  writeIndex w3 r.importScope (c.wideTableIndex .moduleRef)

/-- `FieldRvaRow` (0x1D). -/
structure FieldRvaRow where
  rva : Nat
  field : Nat
deriving DecidableEq, Repr

/-- `FieldRvaRow::write`. -/
def FieldRvaRow.write (r : FieldRvaRow) (w : List Nat) (c : TableContext) : List Nat :=
  let w1 := writeU32 w r.rva
  writeIndex w1 r.field (c.wideTableIndex .field)

/-- `AssemblyRow` (0x20). -/
structure AssemblyRow where
  hashAlgId : Nat
  majorVersion : Nat
  minorVersion : Nat
  buildNumber : Nat
  revisionNumber : Nat
  flags : Nat
  publicKey : Nat
  name : Nat
  culture : Nat
deriving DecidableEq, Repr

/-- `AssemblyRow::write`. -/
def AssemblyRow.write (r : AssemblyRow) (w : List Nat) (c : TableContext) : List Nat :=
  let w1 := writeU32 w r.hashAlgId
  let w2 := writeU16 w1 r.majorVersion
  let w3 := writeU16 w2 r.minorVersion
  let w4 := writeU16 w3 r.buildNumber
  let w5 := writeU16 w4 r.revisionNumber
  let w6 := writeU32 w5 r.flags
  let w7 := writeIndex w6 r.publicKey c.wideBlobIndices
  let w8 := writeIndex w7 r.name c.wideStringIndices
  writeIndex w8 r.culture c.wideStringIndices

/-- `AssemblyRefRow` (0x23). -/
structure AssemblyRefRow where
  majorVersion : Nat
  minorVersion : Nat
  buildNumber : Nat
  revisionNumber : Nat
  flags : Nat
  publicKeyOrToken : Nat
  name : Nat
  culture : Nat
  hashValue : Nat
deriving DecidableEq, Repr

/-- `AssemblyRefRow::write`. -/
def AssemblyRefRow.write (r : AssemblyRefRow) (w : List Nat) (c : TableContext) : List Nat :=
  let w1 := writeU16 w r.majorVersion
  let w2 := writeU16 w1 r.minorVersion
  let w3 := writeU16 w2 r.buildNumber
  let w4 := writeU16 w3 r.revisionNumber
  let w5 := writeU32 w4 r.flags
  let w6 := writeIndex w5 r.publicKeyOrToken c.wideBlobIndices
  let w7 := writeIndex w6 r.name c.wideStringIndices
  let w8 := writeIndex w7 r.culture c.wideStringIndices
  writeIndex w8 r.hashValue c.wideBlobIndices

/-- `NestedClassRow` (0x29). -/
structure NestedClassRow where
  nestedClass : Nat
  enclosingClass : Nat
deriving DecidableEq, Repr

/-- `NestedClassRow::write`. -/
def NestedClassRow.write (r : NestedClassRow) (w : List Nat) (c : TableContext) : List Nat :=
  let w1 := writeIndex w r.nestedClass (c.wideTableIndex .typeDef)
  writeIndex w1 r.enclosingClass (c.wideTableIndex .typeDef)

/-- `GenericParamRow` (0x2A). -/
structure GenericParamRow where
  number : Nat
  flags : Nat
  owner : CodedIndex
  name : Nat
deriving DecidableEq, Repr

/-- `GenericParamRow::write`. -/
def GenericParamRow.write (r : GenericParamRow) (w : List Nat) (c : TableContext) : List Nat :=
  let w1 := writeU16 w r.number
  let w2 := writeU16 w1 r.flags
  let w3 := writeIndex w2 (r.owner.encode .typeOrMethodDef) (c.wideCodedIndex .typeOrMethodDef)
  writeIndex w3 r.name c.wideStringIndices

/-- `MethodSpecRow` (0x2B). -/
structure MethodSpecRow where
  method : CodedIndex
  instantiation : Nat
deriving DecidableEq, Repr

/-- `MethodSpecRow::write`. -/
def MethodSpecRow.write (r : MethodSpecRow) (w : List Nat) (c : TableContext) : List Nat :=
  let w1 := writeIndex w (r.method.encode .methodDefOrRef) (c.wideCodedIndex .methodDefOrRef)
  writeIndex w1 r.instantiation c.wideBlobIndices

/-- `GenericParamConstraintRow` (0x2C). -/
structure GenericParamConstraintRow where
  owner : Nat
  constraint : CodedIndex
deriving DecidableEq, Repr

/-- `GenericParamConstraintRow::write`. -/
def GenericParamConstraintRow.write (r : GenericParamConstraintRow) (w : List Nat) (c : TableContext) : List Nat :=
  let w1 := writeIndex w r.owner (c.wideTableIndex .genericParam)
  writeIndex w1 (r.constraint.encode .typeDefOrRef) (c.wideCodedIndex .typeDefOrRef)

/-- Modelled from the spec: `FieldPtrRow` (0x03), a single simple `Field`
    index; imported by `metadata.rs` but absent from the provided sources. -/
structure FieldPtrRow where
  field : Nat
deriving DecidableEq, Repr

/-- Modelled from the spec: `FieldPtrRow::write`. -/
def FieldPtrRow.write (r : FieldPtrRow) (w : List Nat) (c : TableContext) : List Nat :=
  writeIndex w r.field (c.wideTableIndex .field)

/-- Modelled from the spec: `MethodPtrRow` (0x05). -/
structure MethodPtrRow where
  method : Nat
deriving DecidableEq, Repr

/-- Modelled from the spec: `MethodPtrRow::write`. -/
def MethodPtrRow.write (r : MethodPtrRow) (w : List Nat) (c : TableContext) : List Nat :=
  writeIndex w r.method (c.wideTableIndex .methodDef)

/-- Modelled from the spec: `ParamPtrRow` (0x07). -/
structure ParamPtrRow where
  param : Nat
deriving DecidableEq, Repr

/-- Modelled from the spec: `ParamPtrRow::write`. -/
def ParamPtrRow.write (r : ParamPtrRow) (w : List Nat) (c : TableContext) : List Nat :=
  writeIndex w r.param (c.wideTableIndex .param)

/-- Modelled from the spec: `EventPtrRow` (0x13). -/
structure EventPtrRow where
  event : Nat
deriving DecidableEq, Repr

/-- Modelled from the spec: `EventPtrRow::write`. -/
def EventPtrRow.write (r : EventPtrRow) (w : List Nat) (c : TableContext) : List Nat :=
  writeIndex w r.event (c.wideTableIndex .event)

/-- Modelled from the spec: `PropertyPtrRow` (0x16). -/
structure PropertyPtrRow where
  property : Nat
deriving DecidableEq, Repr

/-- Modelled from the spec: `PropertyPtrRow::write`. -/
def PropertyPtrRow.write (r : PropertyPtrRow) (w : List Nat) (c : TableContext) : List Nat :=
  writeIndex w r.property (c.wideTableIndex .property)

/-- Modelled from the spec: `EncLogRow` (0x1E), fields `token:u32,
    func_code:u32` per the spec field summary; imported by `metadata.rs` but
    absent from the provided sources. -/
structure EncLogRow where
  token : Nat
  funcCode : Nat
deriving DecidableEq, Repr

/-- Modelled from the spec: `EncLogRow::write` emits the two u32 fields. -/
def EncLogRow.write (r : EncLogRow) (w : List Nat) (_ : TableContext) : List Nat :=
  writeU32 (writeU32 w r.token) r.funcCode

/-- Modelled from the spec: `EncMapRow` (0x1F), field `token:u32`. -/
structure EncMapRow where
  token : Nat
deriving DecidableEq, Repr

/-- Modelled from the spec: `EncMapRow::write` emits the u32 token. -/
def EncMapRow.write (r : EncMapRow) (w : List Nat) (_ : TableContext) : List Nat :=
  writeU32 w r.token

/-! ## Metadata (`metadata.rs`) -/

/-- Parsed CLR metadata (`Metadata` in `metadata.rs`): root, heaps, tables
    header and one row vector per modelled table. -/
structure Metadata where
  root : MetadataRoot
  strings : StringsHeap
  userStrings : UserStringsHeap
  guids : GuidHeap
  blobs : BlobHeap
  tablesHeader : TablesHeader
  modules : List ModuleRow
  typeRefs : List TypeRefRow
  typeDefs : List TypeDefRow
  fieldPtrs : List FieldPtrRow
  fields : List FieldRow
  methodPtrs : List MethodPtrRow
  methodDefs : List MethodDefRow
  paramPtrs : List ParamPtrRow
  params : List ParamRow
  interfaceImpls : List InterfaceImplRow
  memberRefs : List MemberRefRow
  constants : List ConstantRow
  customAttributes : List CustomAttributeRow
  fieldMarshals : List FieldMarshalRow
  declSecurities : List DeclSecurityRow
  classLayouts : List ClassLayoutRow
  fieldLayouts : List FieldLayoutRow
  standAloneSigs : List StandAloneSigRow
  eventMaps : List EventMapRow
  eventPtrs : List EventPtrRow
  events : List EventRow
  propertyMaps : List PropertyMapRow
  propertyPtrs : List PropertyPtrRow
  properties : List PropertyRow
  methodSemantics : List MethodSemanticsRow
  methodImpls : List MethodImplRow
  moduleRefs : List ModuleRefRow
  typeSpecs : List TypeSpecRow
  implMaps : List ImplMapRow
  fieldRvas : List FieldRvaRow
  encLogs : List EncLogRow
  encMaps : List EncMapRow
  assemblies : List AssemblyRow
  assemblyRefs : List AssemblyRefRow
  nestedClasses : List NestedClassRow
  genericParams : List GenericParamRow
  methodSpecs : List MethodSpecRow
  genericParamConstraints : List GenericParamConstraintRow
deriving DecidableEq, Repr

namespace Metadata

/-- `Metadata::calculate_heap_sizes`: OR together the wide-index flags. -/
def calculateHeapSizes (md : Metadata) : Nat :=
  (if md.strings.usesWideIndices then 0x01 else 0)
    ||| (if md.guids.usesWideIndices then 0x02 else 0)
    ||| (if md.blobs.usesWideIndices then 0x04 else 0)

/-- `Metadata::calculate_tables_size`: header size plus `count * row_size`
    over the valid tables, under the (unchanged) header's context. -/
def calculateTablesSize (md : Metadata) : Nat :=
  let ctx := md.tablesHeader.context
  md.tablesHeader.size
    + ((md.tablesHeader.tables).map (fun p => p.2 * ctx.rowSize p.1)).sum

/-- The 38 row-count updates performed at the top of
    `Metadata::write_tables`, as `(table, row-vector length)` pairs in
    source order. -/
def rowCountUpdates (md : Metadata) : List (TableId × Nat) :=
  [(.module, md.modules.length), (.typeRef, md.typeRefs.length),
   (.typeDef, md.typeDefs.length), (.fieldPtr, md.fieldPtrs.length),
   (.field, md.fields.length), (.methodPtr, md.methodPtrs.length),
   (.methodDef, md.methodDefs.length), (.paramPtr, md.paramPtrs.length),
   (.param, md.params.length), (.interfaceImpl, md.interfaceImpls.length),
   (.memberRef, md.memberRefs.length), (.constant, md.constants.length),
   (.customAttribute, md.customAttributes.length),
   (.fieldMarshal, md.fieldMarshals.length),
   (.declSecurity, md.declSecurities.length),
   (.classLayout, md.classLayouts.length),
   (.fieldLayout, md.fieldLayouts.length),
   (.standAloneSig, md.standAloneSigs.length),
   (.eventMap, md.eventMaps.length), (.eventPtr, md.eventPtrs.length),
   (.event, md.events.length), (.propertyMap, md.propertyMaps.length),
   (.propertyPtr, md.propertyPtrs.length), (.property, md.properties.length),
   (.methodSemantics, md.methodSemantics.length),
   (.methodImpl, md.methodImpls.length), (.moduleRef, md.moduleRefs.length),
   (.typeSpec, md.typeSpecs.length), (.implMap, md.implMaps.length),
   (.fieldRva, md.fieldRvas.length), (.encLog, md.encLogs.length),
   (.encMap, md.encMaps.length), (.assembly, md.assemblies.length),
   (.assemblyRef, md.assemblyRefs.length),
   (.nestedClass, md.nestedClasses.length),
   (.genericParam, md.genericParams.length),
   (.methodSpec, md.methodSpecs.length),
   (.genericParamConstraint, md.genericParamConstraints.length)]

/-- The header written by `Metadata::write_tables`: the cloned tables header
    with the recomputed heap-size byte and all 38 `set_row_count` updates
    applied. -/
def updatedHeader (md : Metadata) (heapSizes : Nat) : TablesHeader :=
  (rowCountUpdates md).foldl (fun h p => h.setRowCount p.1 p.2)
    { md.tablesHeader with heapSizes := heapSizes }

/-- Helper: write every row of one table with its `write` method. -/
def writeRows {ρ : Type} (w : List Nat) (ctx : TableContext)
    (rows : List ρ) (wr : ρ → List Nat → TableContext → List Nat) : List Nat :=
  rows.foldl (fun acc r => wr r acc ctx) w

/-- `Metadata::write_tables`: emit the updated header, then every modelled
    table's rows in table-ID order under the updated context. -/
def writeTables (md : Metadata) (w : List Nat) (heapSizes : Nat) : List Nat :=
  let header := updatedHeader md heapSizes
  let w0 := header.writeTo w
  let ctx := header.context
  let w1 := writeRows w0 ctx md.modules ModuleRow.write
  let w2 := writeRows w1 ctx md.typeRefs TypeRefRow.write
  let w3 := writeRows w2 ctx md.typeDefs TypeDefRow.write
  let w4 := writeRows w3 ctx md.fieldPtrs FieldPtrRow.write
  let w5 := writeRows w4 ctx md.fields FieldRow.write
  let w6 := writeRows w5 ctx md.methodPtrs MethodPtrRow.write
  let w7 := writeRows w6 ctx md.methodDefs MethodDefRow.write
  let w8 := writeRows w7 ctx md.paramPtrs ParamPtrRow.write
  let w9 := writeRows w8 ctx md.params ParamRow.write
  let w10 := writeRows w9 ctx md.interfaceImpls InterfaceImplRow.write
  let w11 := writeRows w10 ctx md.memberRefs MemberRefRow.write
  let w12 := writeRows w11 ctx md.constants ConstantRow.write
  let w13 := writeRows w12 ctx md.customAttributes CustomAttributeRow.write
  let w14 := writeRows w13 ctx md.fieldMarshals FieldMarshalRow.write
  let w15 := writeRows w14 ctx md.declSecurities DeclSecurityRow.write
  let w16 := writeRows w15 ctx md.classLayouts ClassLayoutRow.write
  let w17 := writeRows w16 ctx md.fieldLayouts FieldLayoutRow.write
  let w18 := writeRows w17 ctx md.standAloneSigs StandAloneSigRow.write
  let w19 := writeRows w18 ctx md.eventMaps EventMapRow.write
  let w20 := writeRows w19 ctx md.eventPtrs EventPtrRow.write
  let w21 := writeRows w20 ctx md.events EventRow.write
  let w22 := writeRows w21 ctx md.propertyMaps PropertyMapRow.write
  let w23 := writeRows w22 ctx md.propertyPtrs PropertyPtrRow.write
  let w24 := writeRows w23 ctx md.properties PropertyRow.write
  let w25 := writeRows w24 ctx md.methodSemantics MethodSemanticsRow.write
  let w26 := writeRows w25 ctx md.methodImpls MethodImplRow.write
  let w27 := writeRows w26 ctx md.moduleRefs ModuleRefRow.write
  let w28 := writeRows w27 ctx md.typeSpecs TypeSpecRow.write
  let w29 := writeRows w28 ctx md.implMaps ImplMapRow.write
  let w30 := writeRows w29 ctx md.fieldRvas FieldRvaRow.write
  let w31 := writeRows w30 ctx md.encLogs EncLogRow.write
  let w32 := writeRows w31 ctx md.encMaps EncMapRow.write
  let w33 := writeRows w32 ctx md.assemblies AssemblyRow.write
  let w34 := writeRows w33 ctx md.assemblyRefs AssemblyRefRow.write
  let w35 := writeRows w34 ctx md.nestedClasses NestedClassRow.write
  let w36 := writeRows w35 ctx md.genericParams GenericParamRow.write
  let w37 := writeRows w36 ctx md.methodSpecs MethodSpecRow.write
  writeRows w37 ctx md.genericParamConstraints GenericParamConstraintRow.write

/-- The recomputed declared size of one stream in `Metadata::write_to`
    (`stream.size` after the name match; unknown names keep the old size).
    Stored into a u32 field, hence `% 2 ^ 32` on the computed cases. -/
def declaredStreamSize (md : Metadata) (s : StreamHeader) : Nat :=
  if s.name = nameTables ∨ s.name = nameTablesUncompressed then
    calculateTablesSize md % 2 ^ 32
  else if s.name = nameStrings then md.strings.size % 2 ^ 32
  else if s.name = nameUserStrings then md.userStrings.size % 2 ^ 32
  else if s.name = nameGuid then md.guids.size % 2 ^ 32
  else if s.name = nameBlob then md.blobs.size % 2 ^ 32
  else s.size

/-- Round up to the next multiple of four: `(x + 3) & !3` on usize. -/
def alignUp4 (x : Nat) : Nat := (x + 3) / 4 * 4

/-- The stream-layout loop of `Metadata::write_to`: assign each stream its
    running offset (`as u32`) and recomputed size, advancing by the size and
    aligning to 4. -/
def layoutGo (md : Metadata) (off : Nat) : List StreamHeader → List StreamHeader
  | [] => []
  | s :: rest =>
    let size := declaredStreamSize md s
    let s' : StreamHeader := ⟨off % 2 ^ 32, size, s.name⟩
    s' :: layoutGo md (alignUp4 (off + size)) rest

/-- The laid-out stream directory emitted by `Metadata::write_to`. -/
def layoutStreams (md : Metadata) : List StreamHeader :=
  layoutGo md md.root.headerSize md.root.streams

/-- The byte content `Metadata::write_to` emits for a stream of the given
    name (unknown streams are skipped and contribute nothing). -/
def streamContent (md : Metadata) (heapSizes : Nat) (name : List Nat) : List Nat :=
  if name = nameTables ∨ name = nameTablesUncompressed then
    writeTables md [] heapSizes
  else if name = nameStrings then md.strings.data
  else if name = nameUserStrings then md.userStrings.data
  else if name = nameGuid then md.guids.data
  else if name = nameBlob then md.blobs.data
  else []

/-- The stream-emission loop of `Metadata::write_to`: append each stream's
    content by name, then align the writer to 4 bytes. -/
def emitGo (md : Metadata) (heapSizes : Nat) (w : List Nat) :
    List StreamHeader → List Nat
  | [] => w
  | s :: rest =>
    emitGo md heapSizes (writerAlign (w ++ streamContent md heapSizes s.name) 4) rest

/-- `Metadata::write_to`: recompute heap-size flags, lay out the stream
    directory, emit the root header with the updated directory, then emit
    each stream 4-byte aligned. -/
def writeTo (md : Metadata) (w : List Nat) : List Nat :=
  let heapSizes := calculateHeapSizes md
  let streams' := layoutStreams md
  let root' := { md.root with streams := streams' }
  let w1 := root'.writeTo w
  emitGo md heapSizes w1 streams'

/-- `Metadata::write`: write into a fresh buffer. -/
def write (md : Metadata) : List Nat := md.writeTo []

/-- `Metadata::validate_string_index`: nonzero string indices must resolve. -/
def vStringIndex (md : Metadata) (tbl : String) (row : Nat) (fld : String)
    (index : Nat) : List String :=
  if index ≠ 0 ∧ (md.strings.get index).isErr then
    [tbl ++ "[" ++ toString row ++ "]." ++ fld ++ ": invalid string index "
      ++ toString index]
  else []

/-- `Metadata::validate_guid_index`. -/
def vGuidIndex (md : Metadata) (tbl : String) (row : Nat) (fld : String)
    (index : Nat) : List String :=
  if index ≠ 0 ∧ (md.guids.get index).isErr then
    [tbl ++ "[" ++ toString row ++ "]." ++ fld ++ ": invalid GUID index "
      ++ toString index]
  else []

/-- `Metadata::validate_blob_index`. -/
def vBlobIndex (md : Metadata) (tbl : String) (row : Nat) (fld : String)
    (index : Nat) : List String :=
  if index ≠ 0 ∧ (md.blobs.get index).isErr then
    [tbl ++ "[" ++ toString row ++ "]." ++ fld ++ ": invalid blob index "
      ++ toString index]
  else []

/-- `Metadata::validate_table_index`: 1-based index, `max_rows + 1` allowed
    as the empty-list-at-end convention (`max_rows as u32`). -/
def vTableIndex (tbl : String) (row : Nat) (fld : String) (index : Nat)
    (maxRows : Nat) : List String :=
  if index > maxRows % 2 ^ 32 + 1 then
    [tbl ++ "[" ++ toString row ++ "]." ++ fld ++ ": invalid table index "
      ++ toString index ++ " (max " ++ toString (maxRows % 2 ^ 32) ++ ")"]
  else []

/-- `Metadata::validate`: the error list collected over the required-table
    check and the per-table field checks, in source push order. -/
def validate (md : Metadata) : List String :=
  (if md.modules.isEmpty then ["Module table must have at least 1 row"] else [])
  ++ (md.modules.enum.flatMap (fun p =>
        vStringIndex md "Module" p.1 "name" p.2.name
        ++ vGuidIndex md "Module" p.1 "mvid" p.2.mvid))
  ++ (md.typeRefs.enum.flatMap (fun p =>
        vStringIndex md "TypeRef" p.1 "type_name" p.2.typeName
        ++ vStringIndex md "TypeRef" p.1 "type_namespace" p.2.typeNamespace))
  ++ (md.typeDefs.enum.flatMap (fun p =>
        vStringIndex md "TypeDef" p.1 "type_name" p.2.typeName
        ++ vStringIndex md "TypeDef" p.1 "type_namespace" p.2.typeNamespace
        ++ vTableIndex "TypeDef" p.1 "field_list" p.2.fieldList md.fields.length
        ++ vTableIndex "TypeDef" p.1 "method_list" p.2.methodList md.methodDefs.length))
  ++ (md.fields.enum.flatMap (fun p =>
        vStringIndex md "Field" p.1 "name" p.2.name
        ++ vBlobIndex md "Field" p.1 "signature" p.2.signature))
  ++ (md.methodDefs.enum.flatMap (fun p =>
        vStringIndex md "MethodDef" p.1 "name" p.2.name
        ++ vBlobIndex md "MethodDef" p.1 "signature" p.2.signature
        ++ vTableIndex "MethodDef" p.1 "param_list" p.2.paramList md.params.length))
  ++ (md.params.enum.flatMap (fun p =>
        vStringIndex md "Param" p.1 "name" p.2.name))
  ++ (md.memberRefs.enum.flatMap (fun p =>
        vStringIndex md "MemberRef" p.1 "name" p.2.name
        ++ vBlobIndex md "MemberRef" p.1 "signature" p.2.signature))
  ++ (md.constants.enum.flatMap (fun p =>
        vBlobIndex md "Constant" p.1 "value" p.2.value))
  ++ (md.customAttributes.enum.flatMap (fun p =>
        vBlobIndex md "CustomAttribute" p.1 "value" p.2.value))
  ++ (md.assemblies.enum.flatMap (fun p =>
        vStringIndex md "Assembly" p.1 "name" p.2.name
        ++ vStringIndex md "Assembly" p.1 "culture" p.2.culture
        ++ vBlobIndex md "Assembly" p.1 "public_key" p.2.publicKey))
  ++ (md.assemblyRefs.enum.flatMap (fun p =>
        vStringIndex md "AssemblyRef" p.1 "name" p.2.name
        ++ vStringIndex md "AssemblyRef" p.1 "culture" p.2.culture
        ++ vBlobIndex md "AssemblyRef" p.1 "public_key_or_token" p.2.publicKeyOrToken
        ++ vBlobIndex md "AssemblyRef" p.1 "hash_value" p.2.hashValue))

/-- `Metadata::validate_strict`: `Ok` when `validate` is empty, otherwise the
    first collected error wrapped in `ValidationError`. -/
def validateStrict (md : Metadata) : Res Unit :=
  match md.validate with
  | [] => .ok ()
  | e :: _ => .err (.validationError e)

end Metadata

/-! ## SHA-1 and public-key token (`crypto.rs`) -/

/-- `u32::rotate_left` for a value below `2 ^ 32`. -/
def rotl32 (n : Nat) (x : Nat) : Nat :=
  ((x <<< n) % 2 ^ 32) ||| (x >>> (32 - n))

/-- Big-endian bytes of a u32 (`to_be_bytes`). -/
def beBytes4 (x : Nat) : List Nat :=
  [x / 2 ^ 24 % 256, x / 2 ^ 16 % 256, x / 2 ^ 8 % 256, x % 256]

/-- Big-endian u32 from four bytes (`from_be_bytes`). -/
def beWord (b0 b1 b2 b3 : Nat) : Nat :=
  b0 * 2 ^ 24 + b1 * 2 ^ 16 + b2 * 2 ^ 8 + b3

/-- SHA-1 preprocessing from `crypto.rs`: append `0x80`, pad with zeros to
    56 bytes mod 64, append the bit length as 64-bit big-endian
    (`(data.len() as u64) * 8`). -/
def sha1Pad (data : List Nat) : List Nat :=
  let ml := data.length * 8 % 2 ^ 64
  let withOne := data ++ [0x80]
  let zeros := (56 + 64 - withOne.length % 64) % 64
  withOne ++ List.replicate zeros 0
    ++ [ml / 2 ^ 56 % 256, ml / 2 ^ 48 % 256, ml / 2 ^ 40 % 256,
        ml / 2 ^ 32 % 256, ml / 2 ^ 24 % 256, ml / 2 ^ 16 % 256,
        ml / 2 ^ 8 % 256, ml % 256]

/-- Split a byte list into 64-byte chunks; the fuel argument bounds the
    iteration count structurally (it never runs out, since every step
    consumes at least one byte). -/
def chunks64Go : Nat → List Nat → List (List Nat)
  | 0, _ => []
  | fuel + 1, l => if l.isEmpty then [] else l.take 64 :: chunks64Go fuel (l.drop 64)

/-- Split the padded message into 64-byte chunks. -/
def chunks64 (l : List Nat) : List (List Nat) := chunks64Go l.length l

/-- The sixteen big-endian words of one 64-byte chunk. -/
def chunkWords (chunk : List Nat) : List Nat :=
  (List.range 16).map (fun i =>
    beWord (chunk.getD (4 * i) 0) (chunk.getD (4 * i + 1) 0)
      (chunk.getD (4 * i + 2) 0) (chunk.getD (4 * i + 3) 0))

/-- Extend the 16 schedule words to 80:
    `w[i] = rotl1 (w[i-3] ^ w[i-8] ^ w[i-14] ^ w[i-16])`. -/
def extendWords (w16 : List Nat) : List Nat :=
  (List.range 64).foldl
    (fun w _ =>
      w ++ [rotl32 1 (((w.getD (w.length - 3) 0 ^^^ w.getD (w.length - 8) 0)
              ^^^ w.getD (w.length - 14) 0) ^^^ w.getD (w.length - 16) 0)])
    w16

/-- One SHA-1 round: select `f` and `k` by the round index, compute the
    wrapped temporary and rotate the working registers. -/
def sha1Round (w : List Nat) (st : Nat × Nat × Nat × Nat × Nat) (i : Nat) :
    Nat × Nat × Nat × Nat × Nat :=
  let (a, b, c, d, e) := st
  let f :=
    if i ≤ 19 then (b &&& c) ||| (((2 ^ 32 - 1) ^^^ b) &&& d)
    else if i ≤ 39 then (b ^^^ c) ^^^ d
    else if i ≤ 59 then ((b &&& c) ||| (b &&& d)) ||| (c &&& d)
    else (b ^^^ c) ^^^ d
  let k :=
    if i ≤ 19 then 0x5A827999
    else if i ≤ 39 then 0x6ED9EBA1
    else if i ≤ 59 then 0x8F1BBCDC
    else 0xCA62C1D6
  let temp := (rotl32 5 a + f + e + k + w.getD i 0) % 2 ^ 32
  (temp, a, rotl32 30 b, c, d)

/-- Process one 64-byte chunk onto the running hash state. -/
def sha1Chunk (st : Nat × Nat × Nat × Nat × Nat) (chunk : List Nat) :
    Nat × Nat × Nat × Nat × Nat :=
  let w := extendWords (chunkWords chunk)
  let (h0, h1, h2, h3, h4) := st
  let (a, b, c, d, e) := (List.range 80).foldl (sha1Round w) (h0, h1, h2, h3, h4)
  ((h0 + a) % 2 ^ 32, (h1 + b) % 2 ^ 32, (h2 + c) % 2 ^ 32, (h3 + d) % 2 ^ 32,
   (h4 + e) % 2 ^ 32)

/-- `sha1`: single-shot FIPS-180-1 SHA-1 over a byte list, returning the
    20-byte digest big-endian. -/
def sha1 (data : List Nat) : List Nat :=
  let init : Nat × Nat × Nat × Nat × Nat :=
    (0x67452301, 0xEFCDAB89, 0x98BADCFE, 0x10325476, 0xC3D2E1F0)
  let (h0, h1, h2, h3, h4) := (chunks64 (sha1Pad data)).foldl sha1Chunk init
  beBytes4 h0 ++ beBytes4 h1 ++ beBytes4 h2 ++ beBytes4 h3 ++ beBytes4 h4

/-- `public_key_token`: the last 8 bytes of the SHA-1 hash in reversed
    order (`token[i] = hash[19 - i]`). -/
def publicKeyToken (publicKey : List Nat) : List Nat :=
  (List.range 8).map (fun i => (sha1 publicKey).getD (19 - i) 0)

/-! ## Signature parser (`signature.rs`)

The recursive-descent parser is embedded with an explicit fuel parameter
standing in for the well-foundedness the Rust code gets from input
consumption; all uses instantiate the fuel with the blob length, which the
parser can never exhaust. -/

/-- `ElementType` (ECMA-335 II.23.1.16). -/
inductive ElementType where
  | endMarker | voidTy | boolean | char | i1 | u1 | i2 | u2 | i4 | u4
  | i8 | u8 | r4 | r8 | stringTy | ptr | byRef | valueType | classTy
  | varTy | array | genericInst | typedByRef | intPtr | uintPtr | fnPtr
  | object | szArray | mvar | cmodReqd | cmodOpt | internal | modifier
  | sentinelMarker | pinned
deriving DecidableEq, Repr

/-- `TypeSig`: parsed signature types (`signature.rs`). -/
inductive TypeSig where
  | primitive (e : ElementType)
  | classRef (token : Nat)
  | valueTypeRef (token : Nat)
  | szArray (elem : TypeSig)
  | array (elem : TypeSig) (rank : Nat) (sizes : List Nat) (loBounds : List Int)
  | ptr (inner : TypeSig)
  | byRef (inner : TypeSig)
  | genericInst (isValueType : Bool) (typeRef : Nat) (typeArgs : List TypeSig)
  | varTy (index : Nat)
  | mvar (index : Nat)
  | fnPtr (callingConvention : Nat) (genericParamCount : Nat)
      (returnType : TypeSig) (params : List TypeSig) (sentinelIdx : Option Nat)
  | modified (required : Bool) (modifier : Nat) (inner : TypeSig)
  | pinned (inner : TypeSig)

/-- `MethodSig`: parsed method signature. -/
structure MethodSig where
  callingConvention : Nat
  genericParamCount : Nat
  returnType : TypeSig
  params : List TypeSig
  sentinelIdx : Option Nat

/-- The compressed-size list of an `ARRAY` type. -/
def parseUintList : Nat → Reader → Res (List Nat × Reader)
  | 0, r => .ok ([], r)
  | n + 1, r =>
    match r.readCompressedUint with
    | .err e => .err e
    | .ok (v, r1) =>
      match parseUintList n r1 with
      | .err e => .err e
      | .ok (vs, r2) => .ok (v :: vs, r2)

/-- The signed lower-bound list of an `ARRAY` type. -/
def parseIntList : Nat → Reader → Res (List Int × Reader)
  | 0, r => .ok ([], r)
  | n + 1, r =>
    match r.readCompressedInt with
    | .err e => .err e
    | .ok (v, r1) =>
      match parseIntList n r1 with
      | .err e => .err e
      | .ok (vs, r2) => .ok (v :: vs, r2)

mutual

/-- `TypeSig::parse`: dispatch on the element byte. -/
def parseTypeSig : Nat → Reader → Res (TypeSig × Reader)
  | 0, r => .err (.invalidBlob r.pos)
  | fuel + 1, r =>
    match r.readU8 with
    | .err e => .err e
    | .ok (elem, r1) =>
      if elem = 0x01 then .ok (.primitive .voidTy, r1)
      else if elem = 0x02 then .ok (.primitive .boolean, r1)
      else if elem = 0x03 then .ok (.primitive .char, r1)
      else if elem = 0x04 then .ok (.primitive .i1, r1)
      else if elem = 0x05 then .ok (.primitive .u1, r1)
      else if elem = 0x06 then .ok (.primitive .i2, r1)
      else if elem = 0x07 then .ok (.primitive .u2, r1)
      else if elem = 0x08 then .ok (.primitive .i4, r1)
      else if elem = 0x09 then .ok (.primitive .u4, r1)
      else if elem = 0x0A then .ok (.primitive .i8, r1)
      else if elem = 0x0B then .ok (.primitive .u8, r1)
      else if elem = 0x0C then .ok (.primitive .r4, r1)
      else if elem = 0x0D then .ok (.primitive .r8, r1)
      else if elem = 0x0E then .ok (.primitive .stringTy, r1)
      else if elem = 0x16 then .ok (.primitive .typedByRef, r1)
      else if elem = 0x18 then .ok (.primitive .intPtr, r1)
      else if elem = 0x19 then .ok (.primitive .uintPtr, r1)
      else if elem = 0x1C then .ok (.primitive .object, r1)
      else if elem = 0x12 then
        match r1.readCompressedUint with
        | .err e => .err e
        | .ok (token, r2) => .ok (.classRef token, r2)
      else if elem = 0x11 then
        match r1.readCompressedUint with
        | .err e => .err e
        | .ok (token, r2) => .ok (.valueTypeRef token, r2)
      else if elem = 0x1D then
        match parseTypeSig fuel r1 with
        | .err e => .err e
        | .ok (inner, r2) => .ok (.szArray inner, r2)
      else if elem = 0x14 then
        match parseTypeSig fuel r1 with
        | .err e => .err e
        | .ok (inner, r2) =>
          match r2.readCompressedUint with
          | .err e => .err e
          | .ok (rank, r3) =>
            match r3.readCompressedUint with
            | .err e => .err e
            | .ok (numSizes, r4) =>
              match parseUintList numSizes r4 with
              | .err e => .err e
              | .ok (sizes, r5) =>
                match r5.readCompressedUint with
                | .err e => .err e
                | .ok (numLoBounds, r6) =>
                  match parseIntList numLoBounds r6 with
                  | .err e => .err e
                  | .ok (loBounds, r7) =>
                    .ok (.array inner rank sizes loBounds, r7)
      else if elem = 0x0F then
        match parseTypeSig fuel r1 with
        | .err e => .err e
        | .ok (inner, r2) => .ok (.ptr inner, r2)
      else if elem = 0x10 then
        match parseTypeSig fuel r1 with
        | .err e => .err e
        | .ok (inner, r2) => .ok (.byRef inner, r2)
      else if elem = 0x15 then
        match r1.readU8 with
        | .err e => .err e
        | .ok (kindByte, r2) =>
          match r2.readCompressedUint with
          | .err e => .err e
          | .ok (typeRef, r3) =>
            match r3.readCompressedUint with
            | .err e => .err e
            | .ok (genArgCount, r4) =>
              match parseTypeList fuel genArgCount r4 with
              | .err e => .err e
              | .ok (typeArgs, r5) =>
                .ok (.genericInst (kindByte = 0x11) typeRef typeArgs, r5)
      else if elem = 0x13 then
        match r1.readCompressedUint with
        | .err e => .err e
        | .ok (index, r2) => .ok (.varTy index, r2)
      else if elem = 0x1E then
        match r1.readCompressedUint with
        | .err e => .err e
        | .ok (index, r2) => .ok (.mvar index, r2)
      else if elem = 0x1B then
        match parseMethodSig fuel r1 with
        | .err e => .err e
        | .ok (m, r2) =>
          .ok (.fnPtr m.callingConvention m.genericParamCount m.returnType
                 m.params m.sentinelIdx, r2)
      else if elem = 0x1F then
        match r1.readCompressedUint with
        | .err e => .err e
        | .ok (modifier, r2) =>
          match parseTypeSig fuel r2 with
          | .err e => .err e
          | .ok (inner, r3) => .ok (.modified true modifier inner, r3)
      else if elem = 0x20 then
        match r1.readCompressedUint with
        | .err e => .err e
        | .ok (modifier, r2) =>
          match parseTypeSig fuel r2 with
          | .err e => .err e
          | .ok (inner, r3) => .ok (.modified false modifier inner, r3)
      else if elem = 0x45 then
        match parseTypeSig fuel r1 with
        | .err e => .err e
        | .ok (inner, r2) => .ok (.pinned inner, r2)
      else .err (.invalidBlob r1.pos)
termination_by structural fuel => fuel

/-- The generic-argument list of a `GENERICINST` type (the fuel also bounds
    the loop length; entry points pass more fuel than any input can use). -/
def parseTypeList : Nat → Nat → Reader → Res (List TypeSig × Reader)
  | _, 0, r => .ok ([], r)
  | 0, _ + 1, r => .err (.invalidBlob r.pos)
  | fuel + 1, n + 1, r =>
    match parseTypeSig fuel r with
    | .err e => .err e
    | .ok (t, r1) =>
      match parseTypeList fuel n r1 with
      | .err e => .err e
      | .ok (ts, r2) => .ok (t :: ts, r2)
termination_by structural fuel => fuel

/-- The parameter loop of `MethodSig::parse`: before every parameter it
    peeks for a sentinel byte `0x41`; if present it consumes the byte and
    overwrites the recorded sentinel index with the current parameter
    index. -/
def parseParams : Nat → Nat → Nat → Option Nat → Reader →
    Res (List TypeSig × Option Nat × Reader)
  | _, 0, _, sentinelAcc, r => .ok ([], sentinelAcc, r)
  | 0, _ + 1, _, _, r => .err (.invalidBlob r.pos)
  | fuel + 1, n + 1, idx, sentinelAcc, r =>
    let step : Option Nat × Reader :=
      if r.remaining > 0 then
        match r.peekU8 with
        | .ok peek =>
          if peek = 0x41 then (some idx, ⟨r.data, r.pos + 1⟩)
          else (sentinelAcc, r)
        | .err _ => (sentinelAcc, r)
      else (sentinelAcc, r)
    match parseTypeSig fuel step.2 with
    | .err e => .err e
    | .ok (t, r1) =>
      match parseParams fuel n (idx + 1) step.1 r1 with
      | .err e => .err e
      | .ok (ts, sent, r2) => .ok (t :: ts, sent, r2)
termination_by structural fuel => fuel

/-- `MethodSig::parse`: calling convention, optional generic-parameter
    count, parameter count, return type, then the parameter loop. -/
def parseMethodSig : Nat → Reader → Res (MethodSig × Reader)
  | 0, r => .err (.invalidBlob r.pos)
  | fuel + 1, r =>
    match r.readU8 with
    | .err e => .err e
    | .ok (cc, r1) =>
      match
        (if cc &&& 0x10 ≠ 0 then r1.readCompressedUint else .ok (0, r1)) with
      | .err e => .err e
      | .ok (genericParamCount, r2) =>
        match r2.readCompressedUint with
        | .err e => .err e
        | .ok (paramCount, r3) =>
          match parseTypeSig fuel r3 with
          | .err e => .err e
          | .ok (returnType, r4) =>
            match parseParams fuel paramCount 0 none r4 with
            | .err e => .err e
            | .ok (params, sentinelIdx, r5) =>
              .ok (⟨cc, genericParamCount, returnType, params, sentinelIdx⟩, r5)
termination_by structural fuel => fuel

end

/-- `MethodSig::parse_blob`: parse from the start of a byte list. -/
def parseMethodSigBlob (data : List Nat) : Res (MethodSig × Reader) :=
  parseMethodSig (2 * data.length + 2) ⟨data, 0⟩

/-! ## Well-formedness predicates and concrete instances used by the
claims -/

/-- Dedup-map consistency for a `#Strings` heap: every map entry points at
    its key's bytes followed by a null terminator.  Heaps built by `new`,
    `parse` and any sequence of `add`s below 4 GiB satisfy this. -/
def StringsHeap.WF (h : StringsHeap) : Prop :=
  ∀ p ∈ h.map,
    p.2 + p.1.length < h.data.length
    ∧ (h.data.drop p.2).take p.1.length = p.1
    ∧ h.data.getD (p.2 + p.1.length) 1 = 0

/-- Dedup-map consistency for a `#Blob` heap: every map entry whose key is
    short enough for the compressed-length header points at that header
    followed by the key's bytes. -/
def BlobHeap.WF (h : BlobHeap) : Prop :=
  ∀ p ∈ h.map, p.1.length < 2 ^ 29 →
    p.2 + (writeCompressedUint [] p.1.length).length + p.1.length ≤ h.data.length
    ∧ (h.data.drop p.2).take
        ((writeCompressedUint [] p.1.length).length + p.1.length)
      = writeCompressedUint [] p.1.length ++ p.1

/-- A metadata value with every table empty and fresh heaps, used as the
    base of the concrete instances below. -/
def mdEmpty : Metadata where
  root := ⟨1, 1, 0, [], 0, []⟩
  strings := ⟨[0], []⟩
  userStrings := ⟨[0]⟩
  guids := ⟨[]⟩
  blobs := ⟨[0], []⟩
  tablesHeader := ⟨0, 2, 0, 0, 1, 0, 0, List.replicate 64 0⟩
  modules := []
  typeRefs := []
  typeDefs := []
  fieldPtrs := []
  fields := []
  methodPtrs := []
  methodDefs := []
  paramPtrs := []
  params := []
  interfaceImpls := []
  memberRefs := []
  constants := []
  customAttributes := []
  fieldMarshals := []
  declSecurities := []
  classLayouts := []
  fieldLayouts := []
  standAloneSigs := []
  eventMaps := []
  eventPtrs := []
  events := []
  propertyMaps := []
  propertyPtrs := []
  properties := []
  methodSemantics := []
  methodImpls := []
  moduleRefs := []
  typeSpecs := []
  implMaps := []
  fieldRvas := []
  encLogs := []
  encMaps := []
  assemblies := []
  assemblyRefs := []
  nestedClasses := []
  genericParams := []
  methodSpecs := []
  genericParamConstraints := []

/-- Concrete metadata for C1: two Module rows, a `#~` and a `#Strings`
    stream, consistent header (Module bit set, row count 2, narrow heaps). -/
def mdC1 : Metadata :=
  { mdEmpty with
      root := ⟨1, 1, 0, [], 0, [⟨0, 0, nameTables⟩, ⟨0, 0, nameStrings⟩]⟩
      strings := ⟨[0, 0x41, 0], []⟩
      tablesHeader := ⟨0, 2, 0, 0, 1, 1, 0, 2 :: List.replicate 63 0⟩
      modules := [⟨0, 1, 1, 0, 0⟩, ⟨0, 1, 1, 0, 0⟩] }

/-- Concrete metadata for C4: one valid Module row, plus a ModuleRef row
    whose name index 5 does not resolve in the 1-byte strings heap — a field
    the validation pass never visits. -/
def mdC4 : Metadata :=
  { mdEmpty with
      modules := [⟨0, 0, 0, 0, 0⟩]
      moduleRefs := [⟨5⟩] }

/-- The conditions `Metadata::validate` actually checks, written as one
    predicate: the Module table is nonempty, and in the visited tables every
    nonzero string/GUID/blob index resolves in its heap and every visited
    list-start index is at most its target table's row count plus one. -/
def Metadata.validateOk (md : Metadata) : Prop :=
  md.modules ≠ []
  ∧ (∀ r ∈ md.modules,
      (r.name ≠ 0 → (md.strings.get r.name).isOk = true)
      ∧ (r.mvid ≠ 0 → (md.guids.get r.mvid).isOk = true))
  ∧ (∀ r ∈ md.typeRefs,
      (r.typeName ≠ 0 → (md.strings.get r.typeName).isOk = true)
      ∧ (r.typeNamespace ≠ 0 → (md.strings.get r.typeNamespace).isOk = true))
  ∧ (∀ r ∈ md.typeDefs,
      (r.typeName ≠ 0 → (md.strings.get r.typeName).isOk = true)
      ∧ (r.typeNamespace ≠ 0 → (md.strings.get r.typeNamespace).isOk = true)
      ∧ r.fieldList ≤ md.fields.length % 2 ^ 32 + 1
      ∧ r.methodList ≤ md.methodDefs.length % 2 ^ 32 + 1)
  ∧ (∀ r ∈ md.fields,
      (r.name ≠ 0 → (md.strings.get r.name).isOk = true)
      ∧ (r.signature ≠ 0 → (md.blobs.get r.signature).isOk = true))
  ∧ (∀ r ∈ md.methodDefs,
      (r.name ≠ 0 → (md.strings.get r.name).isOk = true)
      ∧ (r.signature ≠ 0 → (md.blobs.get r.signature).isOk = true)
      ∧ r.paramList ≤ md.params.length % 2 ^ 32 + 1)
  ∧ (∀ r ∈ md.params, r.name ≠ 0 → (md.strings.get r.name).isOk = true)
  ∧ (∀ r ∈ md.memberRefs,
      (r.name ≠ 0 → (md.strings.get r.name).isOk = true)
      ∧ (r.signature ≠ 0 → (md.blobs.get r.signature).isOk = true))
  ∧ (∀ r ∈ md.constants, r.value ≠ 0 → (md.blobs.get r.value).isOk = true)
  ∧ (∀ r ∈ md.customAttributes, r.value ≠ 0 → (md.blobs.get r.value).isOk = true)
  ∧ (∀ r ∈ md.assemblies,
      (r.name ≠ 0 → (md.strings.get r.name).isOk = true)
      ∧ (r.culture ≠ 0 → (md.strings.get r.culture).isOk = true)
      ∧ (r.publicKey ≠ 0 → (md.blobs.get r.publicKey).isOk = true))
  ∧ (∀ r ∈ md.assemblyRefs,
      (r.name ≠ 0 → (md.strings.get r.name).isOk = true)
      ∧ (r.culture ≠ 0 → (md.strings.get r.culture).isOk = true)
      ∧ (r.publicKeyOrToken ≠ 0 → (md.blobs.get r.publicKeyOrToken).isOk = true)
      ∧ (r.hashValue ≠ 0 → (md.blobs.get r.hashValue).isOk = true))

/-! ## Supporting lemmas -/

theorem writeU8_length (w : List Nat) (v : Nat) : (writeU8 w v).length = w.length + 1 := by
  simp [writeU8]

theorem writeU16_length (w : List Nat) (v : Nat) : (writeU16 w v).length = w.length + 2 := by
  simp [writeU16]

theorem writeU32_length (w : List Nat) (v : Nat) : (writeU32 w v).length = w.length + 4 := by
  simp [writeU32]

theorem writeU64_length (w : List Nat) (v : Nat) : (writeU64 w v).length = w.length + 8 := by
  simp [writeU64]

theorem writeIndex_length (w : List Nat) (v : Nat) (wide : Bool) :
    (writeIndex w v wide).length = w.length + (if wide then 4 else 2) := by
  cases wide <;> simp [writeIndex, writeU16, writeU32]

/-- Reading one byte inside bounds. -/
theorem Reader.readU8_eq (d : List Nat) (p : Nat) (h : p < d.length) :
    Reader.readU8 ⟨d, p⟩ = .ok (d.getD p 0, ⟨d, p + 1⟩) := by
  simp [Reader.readU8, Nat.not_le.2 h]

/-- Reading a byte run inside bounds. -/
theorem Reader.readBytes_eq (d : List Nat) (p n : Nat) (h : p + n ≤ d.length) :
    Reader.readBytes ⟨d, p⟩ n = .ok ((d.drop p).take n, ⟨d, p + n⟩) := by
  simp [Reader.readBytes, Nat.not_lt.2 h]

/-- The 1-byte compressed header facts, checked for every 7-bit payload. -/
theorem oneByteHeaderFacts : ∀ v < 128, v &&& 0x80 = 0 := by
  decide

/-- The 2-byte compressed header facts, checked for every 6-bit payload. -/
theorem twoByteHeaderFacts : ∀ a < 64,
    (0x80 ||| a) < 256 ∧ (0x80 ||| a) &&& 0x80 = 0x80
      ∧ (0x80 ||| a) &&& 0xC0 = 0x80 ∧ (0x80 ||| a) &&& 0x3F = a := by
  decide

set_option maxRecDepth 4000 in
/-- The 4-byte compressed header facts, checked for every 8-bit payload. -/
theorem fourByteHeaderFacts : ∀ a < 256,
    (0xC0 ||| a) < 256 ∧ (0xC0 ||| a) &&& 0x80 = 0x80
      ∧ (0xC0 ||| a) &&& 0xC0 = 0xC0
      ∧ ((0xC0 ||| a) &&& 0xE0 = if a &&& 0x20 = 0 then 0xC0 else 0xE0)
      ∧ (0xC0 ||| a) &&& 0x1F = a % 32 := by
  decide

/-- The reassembled 4-byte payload equals `v % 2 ^ 29` for any `v < 2 ^ 32`. -/
theorem fourByteReassemble (v : Nat) :
    (v >>> 24 % 32) <<< 24 ||| ((v >>> 16) % 256) <<< 16
      ||| ((v >>> 8) % 256) <<< 8 ||| v % 256 = v % 2 ^ 29 := by
  rw [Nat.shiftLeft_eq, Nat.shiftLeft_eq, Nat.shiftLeft_eq]
  rw [Nat.mul_comm (v >>> 24 % 32),
    ← Nat.mul_add_lt_is_or (b := (v >>> 16) % 256 * 2 ^ 16) (by omega) (v >>> 24 % 32)]
  have step1 : 2 ^ 24 * (v >>> 24 % 32) + (v >>> 16) % 256 * 2 ^ 16
      = 2 ^ 16 * (2 ^ 8 * (v >>> 24 % 32) + (v >>> 16) % 256) := by ring
  rw [step1, ← Nat.mul_add_lt_is_or (b := (v >>> 8) % 256 * 2 ^ 8) (by omega)]
  have step2 : 2 ^ 16 * (2 ^ 8 * (v >>> 24 % 32) + v >>> 16 % 256)
        + (v >>> 8) % 256 * 2 ^ 8
      = 2 ^ 8 * (2 ^ 16 * (v >>> 24 % 32) + 2 ^ 8 * (v >>> 16 % 256)
          + v >>> 8 % 256) := by ring
  rw [step2, ← Nat.mul_add_lt_is_or (b := v % 256) (by omega)]
  simp only [Nat.shiftRight_eq_div_pow]
  omega

set_option maxRecDepth 4000 in
/-- A value below `2 ^ 29` written by `write_compressed_uint` reads back
    unchanged by `read_compressed_uint`, consuming exactly the encoded
    bytes, whatever follows them. -/
theorem readCompressedUint_of_write (v : Nat) (hv : v < 2 ^ 29) (tail : List Nat) :
    Reader.readCompressedUint ⟨writeCompressedUint [] v ++ tail, 0⟩ =
      .ok (v, ⟨writeCompressedUint [] v ++ tail,
               (writeCompressedUint [] v).length⟩) := by
  by_cases h1 : v < 0x80
  · have hmod : v % 256 = v := Nat.mod_eq_of_lt (by omega)
    have henc : writeCompressedUint [] v = [v] := by
      simp [writeCompressedUint, h1, writeU8, hmod]
    rw [henc]
    rw [Reader.readCompressedUint]
    rw [Reader.readU8_eq _ _ (by simp)]
    simp [oneByteHeaderFacts v h1]
  · by_cases h2 : v < 0x4000
    · have ha : v >>> 8 < 64 := by
        rw [Nat.shiftRight_eq_div_pow]; omega
      obtain ⟨hlt, hf1, hf2, hf3⟩ := twoByteHeaderFacts (v >>> 8) ha
      have henc : writeCompressedUint [] v = [0x80 ||| v >>> 8, v % 256] := by
        simp [writeCompressedUint, if_neg (by omega : ¬ v < 0x80), if_pos h2,
          writeU8, Nat.mod_eq_of_lt hlt]
      have hval : ((0x80 ||| v >>> 8) &&& 0x3F) <<< 8 ||| v % 256 = v := by
        rw [hf3, Nat.shiftLeft_eq, Nat.mul_comm,
          ← Nat.mul_add_lt_is_or (by omega) (v >>> 8),
          Nat.shiftRight_eq_div_pow]
        omega
      rw [henc]
      rw [Reader.readCompressedUint]
      rw [Reader.readU8_eq _ _ (by simp)]
      simp only [List.cons_append, List.getD_cons_zero]
      rw [if_neg (by omega), if_pos hf2]
      rw [Reader.readU8_eq _ _ (by simp)]
      simp only [List.getD_cons_succ, List.getD_cons_zero, hval]
      simp
    · have ha : v >>> 24 < 32 := by
        rw [Nat.shiftRight_eq_div_pow]; omega
      obtain ⟨hlt, hf1, hf2, hf3, hf4⟩ :=
        fourByteHeaderFacts (v >>> 24) (by omega)
      have ha20 : v >>> 24 &&& 0x20 = 0 := by
        have : ∀ a, a < 32 → a &&& 0x20 = 0 := by decide
        exact this _ ha
      have he0 : (0xC0 ||| v >>> 24) &&& 0xE0 = 0xC0 := by
        rw [hf3, if_pos ha20]
      have hmask : (0xC0 ||| v >>> 24) &&& 0x1F = v >>> 24 := by
        rw [hf4, Nat.mod_eq_of_lt ha]
      have henc : writeCompressedUint [] v
          = [0xC0 ||| v >>> 24, (v >>> 16) % 256, (v >>> 8) % 256, v % 256] := by
        simp [writeCompressedUint, if_neg (by omega : ¬ v < 0x80),
          if_neg (by omega : ¬ v < 0x4000), writeU8, Nat.mod_eq_of_lt hlt]
      have hval : ((0xC0 ||| v >>> 24) &&& 0x1F) <<< 24
          ||| ((v >>> 16) % 256) <<< 16 ||| ((v >>> 8) % 256) <<< 8 ||| v % 256 = v := by
        rw [hmask, ← Nat.mod_eq_of_lt ha]
        rw [fourByteReassemble v]
        exact Nat.mod_eq_of_lt hv
      rw [henc]
      rw [Reader.readCompressedUint]
      rw [Reader.readU8_eq _ _ (by simp)]
      simp only [List.cons_append, List.getD_cons_zero]
      rw [if_neg (by omega), if_neg (by omega), if_pos he0]
      rw [Reader.readBytes_eq _ _ _ (by simp)]
      simp only [List.drop_succ_cons, List.drop_zero, List.take_succ_cons,
        List.take_zero]
      simp only [List.getD_cons_zero, List.getD_cons_succ, hval]
      simp

/-! ## Claim C7 -/

/-- C7: for every v in {0, 1, 127, 128, 16383, 16384, 0x1FFFFFFF}, reading a
    compressed unsigned integer from the bytes produced by
    `write_compressed_uint(v)` yields v, and the decoder consumes exactly the
    bytes the encoder emitted (1, 2 or 4 according to the range of v). -/
theorem compressed_uint_roundtrip_boundary_values :
    (Reader.readCompressedUint ⟨writeCompressedUint [] 0, 0⟩ =
        .ok (0, ⟨writeCompressedUint [] 0, 1⟩)
      ∧ (writeCompressedUint [] 0).length = 1)
    ∧ (Reader.readCompressedUint ⟨writeCompressedUint [] 1, 0⟩ =
        .ok (1, ⟨writeCompressedUint [] 1, 1⟩)
      ∧ (writeCompressedUint [] 1).length = 1)
    ∧ (Reader.readCompressedUint ⟨writeCompressedUint [] 127, 0⟩ =
        .ok (127, ⟨writeCompressedUint [] 127, 1⟩)
      ∧ (writeCompressedUint [] 127).length = 1)
    ∧ (Reader.readCompressedUint ⟨writeCompressedUint [] 128, 0⟩ =
        .ok (128, ⟨writeCompressedUint [] 128, 2⟩)
      ∧ (writeCompressedUint [] 128).length = 2)
    ∧ (Reader.readCompressedUint ⟨writeCompressedUint [] 16383, 0⟩ =
        .ok (16383, ⟨writeCompressedUint [] 16383, 2⟩)
      ∧ (writeCompressedUint [] 16383).length = 2)
    ∧ (Reader.readCompressedUint ⟨writeCompressedUint [] 16384, 0⟩ =
        .ok (16384, ⟨writeCompressedUint [] 16384, 4⟩)
      ∧ (writeCompressedUint [] 16384).length = 4)
    ∧ (Reader.readCompressedUint ⟨writeCompressedUint [] 0x1FFFFFFF, 0⟩ =
        .ok (0x1FFFFFFF, ⟨writeCompressedUint [] 0x1FFFFFFF, 4⟩)
      ∧ (writeCompressedUint [] 0x1FFFFFFF).length = 4) := by
  decide

/-! ## Claim C9 -/

/-- C9: `write_compressed_uint` accepts every u32 and emits 4 bytes for every
    v above 0x1FFFFFFF, but that form does not round-trip:
    `read_compressed_uint` fails with `InvalidCompressedInt` when bit 29 of v
    is set, and otherwise returns `v &&& 0x1FFFFFFF`, which differs from v. -/
theorem compressed_uint_overflow_no_roundtrip (v : Nat) (h32 : v < 2 ^ 32)
    (hBig : 0x1FFFFFFF < v) :
    (writeCompressedUint [] v).length = 4
    ∧ (v.testBit 29 = true →
        Reader.readCompressedUint ⟨writeCompressedUint [] v, 0⟩ =
          .err (.invalidCompressedInt 0))
    ∧ (v.testBit 29 = false →
        Reader.readCompressedUint ⟨writeCompressedUint [] v, 0⟩ =
            .ok (v &&& 0x1FFFFFFF, ⟨writeCompressedUint [] v, 4⟩)
          ∧ v &&& 0x1FFFFFFF ≠ v) := by
  have ha : v >>> 24 < 256 := by
    rw [Nat.shiftRight_eq_div_pow]; omega
  obtain ⟨hlt, hf1, hf2, hf3, hf4⟩ := fourByteHeaderFacts (v >>> 24) ha
  have henc : writeCompressedUint [] v
      = [0xC0 ||| v >>> 24, (v >>> 16) % 256, (v >>> 8) % 256, v % 256] := by
    simp [writeCompressedUint, if_neg (by omega : ¬ v < 0x80),
      if_neg (by omega : ¬ v < 0x4000), writeU8, Nat.mod_eq_of_lt hlt]
  have hbit : (v >>> 24).testBit 5 = v.testBit 29 := by
    rw [Nat.testBit_shiftRight]
  have hand : v >>> 24 &&& 0x20 = (v.testBit 29).toNat * 0x20 := by
    have := Nat.and_two_pow (v >>> 24) 5
    rw [hbit] at this
    simpa using this
  have hne : ¬((0xC0 ||| v >>> 24) &&& 0x80 = 0) := by omega
  have hne2 : ¬((0xC0 ||| v >>> 24) &&& 0xC0 = 0x80) := by omega
  refine ⟨by rw [henc]; rfl, ?_, ?_⟩
  · intro h29
    have he0 : (0xC0 ||| v >>> 24) &&& 0xE0 = 0xE0 := by
      rw [hf3, if_neg (by rw [hand, h29]; simp)]
    rw [henc]
    rw [Reader.readCompressedUint]
    rw [Reader.readU8_eq _ _ (by simp)]
    simp only [List.getD_cons_zero]
    rw [if_neg hne, if_neg hne2, if_neg (by omega)]
  · intro h29
    have he0 : (0xC0 ||| v >>> 24) &&& 0xE0 = 0xC0 := by
      rw [hf3, if_pos (by rw [hand, h29]; simp)]
    have h29eq : v &&& 0x1FFFFFFF = v % 2 ^ 29 := by
      have := Nat.and_pow_two_sub_one_eq_mod v 29
      norm_num at this ⊢
      exact this
    have hval : ((0xC0 ||| v >>> 24) &&& 0x1F) <<< 24
        ||| ((v >>> 16) % 256) <<< 16 ||| ((v >>> 8) % 256) <<< 8 ||| v % 256
        = v &&& 0x1FFFFFFF := by
      rw [hf4, fourByteReassemble v, h29eq]
    constructor
    · rw [henc]
      rw [Reader.readCompressedUint]
      rw [Reader.readU8_eq _ _ (by simp)]
      simp only [List.getD_cons_zero]
      rw [if_neg hne, if_neg hne2, if_pos he0]
      rw [Reader.readBytes_eq _ _ _ (by simp)]
      simp only [List.drop_succ_cons, List.drop_zero, List.take_succ_cons,
        List.take_zero]
      simp only [List.getD_cons_zero, List.getD_cons_succ, hval]
    · rw [h29eq]
      have : v % 2 ^ 29 < 2 ^ 29 := Nat.mod_lt _ (by norm_num)
      omega

/-- Witness for C9 at the concrete inputs 0x20000000 (bit 29 set) and
    0x40000000 (bit 29 clear). -/
theorem compressed_uint_overflow_no_roundtrip_witness :
    ((0x20000000 : Nat) < 2 ^ 32 ∧ (0x1FFFFFFF : Nat) < 0x20000000
      ∧ Reader.readCompressedUint ⟨writeCompressedUint [] 0x20000000, 0⟩ =
          .err (.invalidCompressedInt 0))
    ∧ ((0x40000000 : Nat) < 2 ^ 32 ∧ (0x1FFFFFFF : Nat) < 0x40000000
      ∧ Reader.readCompressedUint ⟨writeCompressedUint [] 0x40000000, 0⟩ =
          .ok ((0x40000000 : Nat) &&& 0x1FFFFFFF,
               ⟨writeCompressedUint [] 0x40000000, 4⟩)) := by
  refine ⟨⟨by norm_num, by norm_num, ?_⟩, ⟨by norm_num, by norm_num, ?_⟩⟩
  · exact (compressed_uint_overflow_no_roundtrip 0x20000000 (by norm_num)
      (by norm_num)).2.1 (by decide)
  · exact ((compressed_uint_overflow_no_roundtrip 0x40000000 (by norm_num)
      (by norm_num)).2.2 (by decide)).1

/-! ## Claim C3 -/

/-- Packing a row into the high bits over a small tag and unpacking recovers
    both, as long as the shifted row fits in 32 bits. -/
theorem shift_or_roundtrip (b row tag : Nat) (hb : b ≤ 32)
    (hrow : row < 2 ^ (32 - b)) (htag : tag < 2 ^ b) :
    ((row <<< b) % 2 ^ 32 ||| tag) >>> b = row
    ∧ ((row <<< b) % 2 ^ 32 ||| tag) &&& ((1 <<< b) - 1) = tag := by
  have hpow : 2 ^ (32 - b) * 2 ^ b = 2 ^ 32 := by
    rw [← pow_add]; congr 1; omega
  have h2 : row * 2 ^ b < 2 ^ 32 := by
    calc row * 2 ^ b < 2 ^ (32 - b) * 2 ^ b :=
          (Nat.mul_lt_mul_right (Nat.pos_pow_of_pos b (by norm_num))).mpr hrow
      _ = 2 ^ 32 := hpow
  have hsh : (row <<< b) % 2 ^ 32 = 2 ^ b * row := by
    rw [Nat.shiftLeft_eq, Nat.mod_eq_of_lt h2, Nat.mul_comm]
  have hor : 2 ^ b * row ||| tag = 2 ^ b * row + tag :=
    (Nat.mul_add_lt_is_or htag row).symm
  constructor
  · rw [hsh, hor, Nat.shiftRight_eq_div_pow, Nat.mul_add_div (Nat.pos_pow_of_pos b (by norm_num)),
      Nat.div_eq_of_lt htag, Nat.add_zero]
  · rw [hsh, hor]
    have hone : (1 <<< b) - 1 = 2 ^ b - 1 := by rw [Nat.shiftLeft_eq, Nat.one_mul]
    rw [hone, Nat.and_pow_two_sub_one_eq_mod, Nat.mul_add_mod, Nat.mod_eq_of_lt htag]

/-- Every scheme uses at most 5 tag bits. -/
theorem tagBits_le_five (k : CodedIndexKind) : k.tagBits ≤ 5 := by
  cases k <;> decide

/-- Decode after encode recovers `(some t, row)` whenever the tag found for
    `t` is the slot that holds `some t` and the row fits. -/
theorem decode_encode_at (k : CodedIndexKind) (t : TableId) (tag row : Nat)
    (htag : ((k.tables).findIdx? (fun x => x == some t)).getD 0 = tag)
    (hget : (k.tables).getD tag none = some t)
    (htaglt : tag < 2 ^ k.tagBits)
    (hrow : row < 2 ^ (32 - k.tagBits)) :
    CodedIndex.decode k (CodedIndex.encode ⟨some t, row⟩ k) = ⟨some t, row⟩ := by
  obtain ⟨hsh, hand⟩ := shift_or_roundtrip k.tagBits row tag
    (le_trans (tagBits_le_five k) (by norm_num)) hrow htaglt
  simp only [CodedIndex.encode, htag, CodedIndex.decode]
  rw [hand, hsh, hget]

/-- C3 (amended): for every coded-index scheme and every pair `(table, row)`
    with `table` in the scheme's target list and
    `row < 2 ^ (32 - tag_bits)`,
    `decode(scheme, encode(scheme, (table, row)))` returns exactly
    `(table, row)`.  (The unamended claim, for arbitrary u32 rows, fails
    because the u32 shift `row << tag_bits` wraps.) -/
theorem coded_index_roundtrip (k : CodedIndexKind) (t : TableId) (row : Nat)
    (hmem : some t ∈ k.tables) (hrow : row < 2 ^ (32 - k.tagBits)) :
    CodedIndex.decode k (CodedIndex.encode ⟨some t, row⟩ k) = ⟨some t, row⟩ := by
  cases k
  case typeDefOrRef =>
    simp only [CodedIndexKind.tables, List.mem_cons, List.not_mem_nil,
      or_false, Option.some.injEq, reduceCtorEq, false_or] at hmem
    rcases hmem with rfl|rfl|rfl <;>
    first
      | exact decode_encode_at _ _ 0 row rfl rfl (by decide) hrow
      | exact decode_encode_at _ _ 1 row rfl rfl (by decide) hrow
      | exact decode_encode_at _ _ 2 row rfl rfl (by decide) hrow
      | exact decode_encode_at _ _ 3 row rfl rfl (by decide) hrow
      | exact decode_encode_at _ _ 4 row rfl rfl (by decide) hrow
      | exact decode_encode_at _ _ 5 row rfl rfl (by decide) hrow
      | exact decode_encode_at _ _ 6 row rfl rfl (by decide) hrow
      | exact decode_encode_at _ _ 7 row rfl rfl (by decide) hrow
      | exact decode_encode_at _ _ 8 row rfl rfl (by decide) hrow
      | exact decode_encode_at _ _ 9 row rfl rfl (by decide) hrow
      | exact decode_encode_at _ _ 10 row rfl rfl (by decide) hrow
      | exact decode_encode_at _ _ 11 row rfl rfl (by decide) hrow
      | exact decode_encode_at _ _ 12 row rfl rfl (by decide) hrow
      | exact decode_encode_at _ _ 13 row rfl rfl (by decide) hrow
      | exact decode_encode_at _ _ 14 row rfl rfl (by decide) hrow
      | exact decode_encode_at _ _ 15 row rfl rfl (by decide) hrow
      | exact decode_encode_at _ _ 16 row rfl rfl (by decide) hrow
      | exact decode_encode_at _ _ 17 row rfl rfl (by decide) hrow
      | exact decode_encode_at _ _ 18 row rfl rfl (by decide) hrow
      | exact decode_encode_at _ _ 19 row rfl rfl (by decide) hrow
      | exact decode_encode_at _ _ 20 row rfl rfl (by decide) hrow
      | exact decode_encode_at _ _ 21 row rfl rfl (by decide) hrow
  case hasConstant =>
    simp only [CodedIndexKind.tables, List.mem_cons, List.not_mem_nil,
      or_false, Option.some.injEq, reduceCtorEq, false_or] at hmem
    rcases hmem with rfl|rfl|rfl <;>
    first
      | exact decode_encode_at _ _ 0 row rfl rfl (by decide) hrow
      | exact decode_encode_at _ _ 1 row rfl rfl (by decide) hrow
      | exact decode_encode_at _ _ 2 row rfl rfl (by decide) hrow
      | exact decode_encode_at _ _ 3 row rfl rfl (by decide) hrow
      | exact decode_encode_at _ _ 4 row rfl rfl (by decide) hrow
      | exact decode_encode_at _ _ 5 row rfl rfl (by decide) hrow
      | exact decode_encode_at _ _ 6 row rfl rfl (by decide) hrow
      | exact decode_encode_at _ _ 7 row rfl rfl (by decide) hrow
      | exact decode_encode_at _ _ 8 row rfl rfl (by decide) hrow
      | exact decode_encode_at _ _ 9 row rfl rfl (by decide) hrow
      | exact decode_encode_at _ _ 10 row rfl rfl (by decide) hrow
      | exact decode_encode_at _ _ 11 row rfl rfl (by decide) hrow
      | exact decode_encode_at _ _ 12 row rfl rfl (by decide) hrow
      | exact decode_encode_at _ _ 13 row rfl rfl (by decide) hrow
      | exact decode_encode_at _ _ 14 row rfl rfl (by decide) hrow
      | exact decode_encode_at _ _ 15 row rfl rfl (by decide) hrow
      | exact decode_encode_at _ _ 16 row rfl rfl (by decide) hrow
      | exact decode_encode_at _ _ 17 row rfl rfl (by decide) hrow
      | exact decode_encode_at _ _ 18 row rfl rfl (by decide) hrow
      | exact decode_encode_at _ _ 19 row rfl rfl (by decide) hrow
      | exact decode_encode_at _ _ 20 row rfl rfl (by decide) hrow
      | exact decode_encode_at _ _ 21 row rfl rfl (by decide) hrow
  case hasCustomAttribute =>
    simp only [CodedIndexKind.tables, List.mem_cons, List.not_mem_nil,
      or_false, Option.some.injEq, reduceCtorEq, false_or] at hmem
    rcases hmem with rfl|rfl|rfl|rfl|rfl|rfl|rfl|rfl|rfl|rfl|rfl|rfl|rfl|rfl|rfl|rfl|rfl|rfl|rfl|rfl|rfl <;>
    first
      | exact decode_encode_at _ _ 0 row rfl rfl (by decide) hrow
      | exact decode_encode_at _ _ 1 row rfl rfl (by decide) hrow
      | exact decode_encode_at _ _ 2 row rfl rfl (by decide) hrow
      | exact decode_encode_at _ _ 3 row rfl rfl (by decide) hrow
      | exact decode_encode_at _ _ 4 row rfl rfl (by decide) hrow
      | exact decode_encode_at _ _ 5 row rfl rfl (by decide) hrow
      | exact decode_encode_at _ _ 6 row rfl rfl (by decide) hrow
      | exact decode_encode_at _ _ 7 row rfl rfl (by decide) hrow
      | exact decode_encode_at _ _ 8 row rfl rfl (by decide) hrow
      | exact decode_encode_at _ _ 9 row rfl rfl (by decide) hrow
      | exact decode_encode_at _ _ 10 row rfl rfl (by decide) hrow
      | exact decode_encode_at _ _ 11 row rfl rfl (by decide) hrow
      | exact decode_encode_at _ _ 12 row rfl rfl (by decide) hrow
      | exact decode_encode_at _ _ 13 row rfl rfl (by decide) hrow
      | exact decode_encode_at _ _ 14 row rfl rfl (by decide) hrow
      | exact decode_encode_at _ _ 15 row rfl rfl (by decide) hrow
      | exact decode_encode_at _ _ 16 row rfl rfl (by decide) hrow
      | exact decode_encode_at _ _ 17 row rfl rfl (by decide) hrow
      | exact decode_encode_at _ _ 18 row rfl rfl (by decide) hrow
      | exact decode_encode_at _ _ 19 row rfl rfl (by decide) hrow
      | exact decode_encode_at _ _ 20 row rfl rfl (by decide) hrow
      | exact decode_encode_at _ _ 21 row rfl rfl (by decide) hrow
  case hasFieldMarshal =>
    simp only [CodedIndexKind.tables, List.mem_cons, List.not_mem_nil,
      or_false, Option.some.injEq, reduceCtorEq, false_or] at hmem
    rcases hmem with rfl|rfl <;>
    first
      | exact decode_encode_at _ _ 0 row rfl rfl (by decide) hrow
      | exact decode_encode_at _ _ 1 row rfl rfl (by decide) hrow
      | exact decode_encode_at _ _ 2 row rfl rfl (by decide) hrow
      | exact decode_encode_at _ _ 3 row rfl rfl (by decide) hrow
      | exact decode_encode_at _ _ 4 row rfl rfl (by decide) hrow
      | exact decode_encode_at _ _ 5 row rfl rfl (by decide) hrow
      | exact decode_encode_at _ _ 6 row rfl rfl (by decide) hrow
      | exact decode_encode_at _ _ 7 row rfl rfl (by decide) hrow
      | exact decode_encode_at _ _ 8 row rfl rfl (by decide) hrow
      | exact decode_encode_at _ _ 9 row rfl rfl (by decide) hrow
      | exact decode_encode_at _ _ 10 row rfl rfl (by decide) hrow
      | exact decode_encode_at _ _ 11 row rfl rfl (by decide) hrow
      | exact decode_encode_at _ _ 12 row rfl rfl (by decide) hrow
      | exact decode_encode_at _ _ 13 row rfl rfl (by decide) hrow
      | exact decode_encode_at _ _ 14 row rfl rfl (by decide) hrow
      | exact decode_encode_at _ _ 15 row rfl rfl (by decide) hrow
      | exact decode_encode_at _ _ 16 row rfl rfl (by decide) hrow
      | exact decode_encode_at _ _ 17 row rfl rfl (by decide) hrow
      | exact decode_encode_at _ _ 18 row rfl rfl (by decide) hrow
      | exact decode_encode_at _ _ 19 row rfl rfl (by decide) hrow
      | exact decode_encode_at _ _ 20 row rfl rfl (by decide) hrow
      | exact decode_encode_at _ _ 21 row rfl rfl (by decide) hrow
  case hasDeclSecurity =>
    simp only [CodedIndexKind.tables, List.mem_cons, List.not_mem_nil,
      or_false, Option.some.injEq, reduceCtorEq, false_or] at hmem
    rcases hmem with rfl|rfl|rfl <;>
    first
      | exact decode_encode_at _ _ 0 row rfl rfl (by decide) hrow
      | exact decode_encode_at _ _ 1 row rfl rfl (by decide) hrow
      | exact decode_encode_at _ _ 2 row rfl rfl (by decide) hrow
      | exact decode_encode_at _ _ 3 row rfl rfl (by decide) hrow
      | exact decode_encode_at _ _ 4 row rfl rfl (by decide) hrow
      | exact decode_encode_at _ _ 5 row rfl rfl (by decide) hrow
      | exact decode_encode_at _ _ 6 row rfl rfl (by decide) hrow
      | exact decode_encode_at _ _ 7 row rfl rfl (by decide) hrow
      | exact decode_encode_at _ _ 8 row rfl rfl (by decide) hrow
      | exact decode_encode_at _ _ 9 row rfl rfl (by decide) hrow
      | exact decode_encode_at _ _ 10 row rfl rfl (by decide) hrow
      | exact decode_encode_at _ _ 11 row rfl rfl (by decide) hrow
      | exact decode_encode_at _ _ 12 row rfl rfl (by decide) hrow
      | exact decode_encode_at _ _ 13 row rfl rfl (by decide) hrow
      | exact decode_encode_at _ _ 14 row rfl rfl (by decide) hrow
      | exact decode_encode_at _ _ 15 row rfl rfl (by decide) hrow
      | exact decode_encode_at _ _ 16 row rfl rfl (by decide) hrow
      | exact decode_encode_at _ _ 17 row rfl rfl (by decide) hrow
      | exact decode_encode_at _ _ 18 row rfl rfl (by decide) hrow
      | exact decode_encode_at _ _ 19 row rfl rfl (by decide) hrow
      | exact decode_encode_at _ _ 20 row rfl rfl (by decide) hrow
      | exact decode_encode_at _ _ 21 row rfl rfl (by decide) hrow
  case memberRefParent =>
    simp only [CodedIndexKind.tables, List.mem_cons, List.not_mem_nil,
      or_false, Option.some.injEq, reduceCtorEq, false_or] at hmem
    rcases hmem with rfl|rfl|rfl|rfl|rfl <;>
    first
      | exact decode_encode_at _ _ 0 row rfl rfl (by decide) hrow
      | exact decode_encode_at _ _ 1 row rfl rfl (by decide) hrow
      | exact decode_encode_at _ _ 2 row rfl rfl (by decide) hrow
      | exact decode_encode_at _ _ 3 row rfl rfl (by decide) hrow
      | exact decode_encode_at _ _ 4 row rfl rfl (by decide) hrow
      | exact decode_encode_at _ _ 5 row rfl rfl (by decide) hrow
      | exact decode_encode_at _ _ 6 row rfl rfl (by decide) hrow
      | exact decode_encode_at _ _ 7 row rfl rfl (by decide) hrow
      | exact decode_encode_at _ _ 8 row rfl rfl (by decide) hrow
      | exact decode_encode_at _ _ 9 row rfl rfl (by decide) hrow
      | exact decode_encode_at _ _ 10 row rfl rfl (by decide) hrow
      | exact decode_encode_at _ _ 11 row rfl rfl (by decide) hrow
      | exact decode_encode_at _ _ 12 row rfl rfl (by decide) hrow
      | exact decode_encode_at _ _ 13 row rfl rfl (by decide) hrow
      | exact decode_encode_at _ _ 14 row rfl rfl (by decide) hrow
      | exact decode_encode_at _ _ 15 row rfl rfl (by decide) hrow
      | exact decode_encode_at _ _ 16 row rfl rfl (by decide) hrow
      | exact decode_encode_at _ _ 17 row rfl rfl (by decide) hrow
      | exact decode_encode_at _ _ 18 row rfl rfl (by decide) hrow
      | exact decode_encode_at _ _ 19 row rfl rfl (by decide) hrow
      | exact decode_encode_at _ _ 20 row rfl rfl (by decide) hrow
      | exact decode_encode_at _ _ 21 row rfl rfl (by decide) hrow
  case hasSemantics =>
    simp only [CodedIndexKind.tables, List.mem_cons, List.not_mem_nil,
      or_false, Option.some.injEq, reduceCtorEq, false_or] at hmem
    rcases hmem with rfl|rfl <;>
    first
      | exact decode_encode_at _ _ 0 row rfl rfl (by decide) hrow
      | exact decode_encode_at _ _ 1 row rfl rfl (by decide) hrow
      | exact decode_encode_at _ _ 2 row rfl rfl (by decide) hrow
      | exact decode_encode_at _ _ 3 row rfl rfl (by decide) hrow
      | exact decode_encode_at _ _ 4 row rfl rfl (by decide) hrow
      | exact decode_encode_at _ _ 5 row rfl rfl (by decide) hrow
      | exact decode_encode_at _ _ 6 row rfl rfl (by decide) hrow
      | exact decode_encode_at _ _ 7 row rfl rfl (by decide) hrow
      | exact decode_encode_at _ _ 8 row rfl rfl (by decide) hrow
      | exact decode_encode_at _ _ 9 row rfl rfl (by decide) hrow
      | exact decode_encode_at _ _ 10 row rfl rfl (by decide) hrow
      | exact decode_encode_at _ _ 11 row rfl rfl (by decide) hrow
      | exact decode_encode_at _ _ 12 row rfl rfl (by decide) hrow
      | exact decode_encode_at _ _ 13 row rfl rfl (by decide) hrow
      | exact decode_encode_at _ _ 14 row rfl rfl (by decide) hrow
      | exact decode_encode_at _ _ 15 row rfl rfl (by decide) hrow
      | exact decode_encode_at _ _ 16 row rfl rfl (by decide) hrow
      | exact decode_encode_at _ _ 17 row rfl rfl (by decide) hrow
      | exact decode_encode_at _ _ 18 row rfl rfl (by decide) hrow
      | exact decode_encode_at _ _ 19 row rfl rfl (by decide) hrow
      | exact decode_encode_at _ _ 20 row rfl rfl (by decide) hrow
      | exact decode_encode_at _ _ 21 row rfl rfl (by decide) hrow
  case methodDefOrRef =>
    simp only [CodedIndexKind.tables, List.mem_cons, List.not_mem_nil,
      or_false, Option.some.injEq, reduceCtorEq, false_or] at hmem
    rcases hmem with rfl|rfl <;>
    first
      | exact decode_encode_at _ _ 0 row rfl rfl (by decide) hrow
      | exact decode_encode_at _ _ 1 row rfl rfl (by decide) hrow
      | exact decode_encode_at _ _ 2 row rfl rfl (by decide) hrow
      | exact decode_encode_at _ _ 3 row rfl rfl (by decide) hrow
      | exact decode_encode_at _ _ 4 row rfl rfl (by decide) hrow
      | exact decode_encode_at _ _ 5 row rfl rfl (by decide) hrow
      | exact decode_encode_at _ _ 6 row rfl rfl (by decide) hrow
      | exact decode_encode_at _ _ 7 row rfl rfl (by decide) hrow
      | exact decode_encode_at _ _ 8 row rfl rfl (by decide) hrow
      | exact decode_encode_at _ _ 9 row rfl rfl (by decide) hrow
      | exact decode_encode_at _ _ 10 row rfl rfl (by decide) hrow
      | exact decode_encode_at _ _ 11 row rfl rfl (by decide) hrow
      | exact decode_encode_at _ _ 12 row rfl rfl (by decide) hrow
      | exact decode_encode_at _ _ 13 row rfl rfl (by decide) hrow
      | exact decode_encode_at _ _ 14 row rfl rfl (by decide) hrow
      | exact decode_encode_at _ _ 15 row rfl rfl (by decide) hrow
      | exact decode_encode_at _ _ 16 row rfl rfl (by decide) hrow
      | exact decode_encode_at _ _ 17 row rfl rfl (by decide) hrow
      | exact decode_encode_at _ _ 18 row rfl rfl (by decide) hrow
      | exact decode_encode_at _ _ 19 row rfl rfl (by decide) hrow
      | exact decode_encode_at _ _ 20 row rfl rfl (by decide) hrow
      | exact decode_encode_at _ _ 21 row rfl rfl (by decide) hrow
  case memberForwarded =>
    simp only [CodedIndexKind.tables, List.mem_cons, List.not_mem_nil,
      or_false, Option.some.injEq, reduceCtorEq, false_or] at hmem
    rcases hmem with rfl|rfl <;>
    first
      | exact decode_encode_at _ _ 0 row rfl rfl (by decide) hrow
      | exact decode_encode_at _ _ 1 row rfl rfl (by decide) hrow
      | exact decode_encode_at _ _ 2 row rfl rfl (by decide) hrow
      | exact decode_encode_at _ _ 3 row rfl rfl (by decide) hrow
      | exact decode_encode_at _ _ 4 row rfl rfl (by decide) hrow
      | exact decode_encode_at _ _ 5 row rfl rfl (by decide) hrow
      | exact decode_encode_at _ _ 6 row rfl rfl (by decide) hrow
      | exact decode_encode_at _ _ 7 row rfl rfl (by decide) hrow
      | exact decode_encode_at _ _ 8 row rfl rfl (by decide) hrow
      | exact decode_encode_at _ _ 9 row rfl rfl (by decide) hrow
      | exact decode_encode_at _ _ 10 row rfl rfl (by decide) hrow
      | exact decode_encode_at _ _ 11 row rfl rfl (by decide) hrow
      | exact decode_encode_at _ _ 12 row rfl rfl (by decide) hrow
      | exact decode_encode_at _ _ 13 row rfl rfl (by decide) hrow
      | exact decode_encode_at _ _ 14 row rfl rfl (by decide) hrow
      | exact decode_encode_at _ _ 15 row rfl rfl (by decide) hrow
      | exact decode_encode_at _ _ 16 row rfl rfl (by decide) hrow
      | exact decode_encode_at _ _ 17 row rfl rfl (by decide) hrow
      | exact decode_encode_at _ _ 18 row rfl rfl (by decide) hrow
      | exact decode_encode_at _ _ 19 row rfl rfl (by decide) hrow
      | exact decode_encode_at _ _ 20 row rfl rfl (by decide) hrow
      | exact decode_encode_at _ _ 21 row rfl rfl (by decide) hrow
  case implementation =>
    simp only [CodedIndexKind.tables, List.mem_cons, List.not_mem_nil,
      or_false, Option.some.injEq, reduceCtorEq, false_or] at hmem
    rcases hmem with rfl|rfl|rfl <;>
    first
      | exact decode_encode_at _ _ 0 row rfl rfl (by decide) hrow
      | exact decode_encode_at _ _ 1 row rfl rfl (by decide) hrow
      | exact decode_encode_at _ _ 2 row rfl rfl (by decide) hrow
      | exact decode_encode_at _ _ 3 row rfl rfl (by decide) hrow
      | exact decode_encode_at _ _ 4 row rfl rfl (by decide) hrow
      | exact decode_encode_at _ _ 5 row rfl rfl (by decide) hrow
      | exact decode_encode_at _ _ 6 row rfl rfl (by decide) hrow
      | exact decode_encode_at _ _ 7 row rfl rfl (by decide) hrow
      | exact decode_encode_at _ _ 8 row rfl rfl (by decide) hrow
      | exact decode_encode_at _ _ 9 row rfl rfl (by decide) hrow
      | exact decode_encode_at _ _ 10 row rfl rfl (by decide) hrow
      | exact decode_encode_at _ _ 11 row rfl rfl (by decide) hrow
      | exact decode_encode_at _ _ 12 row rfl rfl (by decide) hrow
      | exact decode_encode_at _ _ 13 row rfl rfl (by decide) hrow
      | exact decode_encode_at _ _ 14 row rfl rfl (by decide) hrow
      | exact decode_encode_at _ _ 15 row rfl rfl (by decide) hrow
      | exact decode_encode_at _ _ 16 row rfl rfl (by decide) hrow
      | exact decode_encode_at _ _ 17 row rfl rfl (by decide) hrow
      | exact decode_encode_at _ _ 18 row rfl rfl (by decide) hrow
      | exact decode_encode_at _ _ 19 row rfl rfl (by decide) hrow
      | exact decode_encode_at _ _ 20 row rfl rfl (by decide) hrow
      | exact decode_encode_at _ _ 21 row rfl rfl (by decide) hrow
  case customAttributeType =>
    simp only [CodedIndexKind.tables, List.mem_cons, List.not_mem_nil,
      or_false, Option.some.injEq, reduceCtorEq, false_or] at hmem
    rcases hmem with rfl|rfl <;>
    first
      | exact decode_encode_at _ _ 0 row rfl rfl (by decide) hrow
      | exact decode_encode_at _ _ 1 row rfl rfl (by decide) hrow
      | exact decode_encode_at _ _ 2 row rfl rfl (by decide) hrow
      | exact decode_encode_at _ _ 3 row rfl rfl (by decide) hrow
      | exact decode_encode_at _ _ 4 row rfl rfl (by decide) hrow
      | exact decode_encode_at _ _ 5 row rfl rfl (by decide) hrow
      | exact decode_encode_at _ _ 6 row rfl rfl (by decide) hrow
      | exact decode_encode_at _ _ 7 row rfl rfl (by decide) hrow
      | exact decode_encode_at _ _ 8 row rfl rfl (by decide) hrow
      | exact decode_encode_at _ _ 9 row rfl rfl (by decide) hrow
      | exact decode_encode_at _ _ 10 row rfl rfl (by decide) hrow
      | exact decode_encode_at _ _ 11 row rfl rfl (by decide) hrow
      | exact decode_encode_at _ _ 12 row rfl rfl (by decide) hrow
      | exact decode_encode_at _ _ 13 row rfl rfl (by decide) hrow
      | exact decode_encode_at _ _ 14 row rfl rfl (by decide) hrow
      | exact decode_encode_at _ _ 15 row rfl rfl (by decide) hrow
      | exact decode_encode_at _ _ 16 row rfl rfl (by decide) hrow
      | exact decode_encode_at _ _ 17 row rfl rfl (by decide) hrow
      | exact decode_encode_at _ _ 18 row rfl rfl (by decide) hrow
      | exact decode_encode_at _ _ 19 row rfl rfl (by decide) hrow
      | exact decode_encode_at _ _ 20 row rfl rfl (by decide) hrow
      | exact decode_encode_at _ _ 21 row rfl rfl (by decide) hrow
  case resolutionScope =>
    simp only [CodedIndexKind.tables, List.mem_cons, List.not_mem_nil,
      or_false, Option.some.injEq, reduceCtorEq, false_or] at hmem
    rcases hmem with rfl|rfl|rfl|rfl <;>
    first
      | exact decode_encode_at _ _ 0 row rfl rfl (by decide) hrow
      | exact decode_encode_at _ _ 1 row rfl rfl (by decide) hrow
      | exact decode_encode_at _ _ 2 row rfl rfl (by decide) hrow
      | exact decode_encode_at _ _ 3 row rfl rfl (by decide) hrow
      | exact decode_encode_at _ _ 4 row rfl rfl (by decide) hrow
      | exact decode_encode_at _ _ 5 row rfl rfl (by decide) hrow
      | exact decode_encode_at _ _ 6 row rfl rfl (by decide) hrow
      | exact decode_encode_at _ _ 7 row rfl rfl (by decide) hrow
      | exact decode_encode_at _ _ 8 row rfl rfl (by decide) hrow
      | exact decode_encode_at _ _ 9 row rfl rfl (by decide) hrow
      | exact decode_encode_at _ _ 10 row rfl rfl (by decide) hrow
      | exact decode_encode_at _ _ 11 row rfl rfl (by decide) hrow
      | exact decode_encode_at _ _ 12 row rfl rfl (by decide) hrow
      | exact decode_encode_at _ _ 13 row rfl rfl (by decide) hrow
      | exact decode_encode_at _ _ 14 row rfl rfl (by decide) hrow
      | exact decode_encode_at _ _ 15 row rfl rfl (by decide) hrow
      | exact decode_encode_at _ _ 16 row rfl rfl (by decide) hrow
      | exact decode_encode_at _ _ 17 row rfl rfl (by decide) hrow
      | exact decode_encode_at _ _ 18 row rfl rfl (by decide) hrow
      | exact decode_encode_at _ _ 19 row rfl rfl (by decide) hrow
      | exact decode_encode_at _ _ 20 row rfl rfl (by decide) hrow
      | exact decode_encode_at _ _ 21 row rfl rfl (by decide) hrow
  case typeOrMethodDef =>
    simp only [CodedIndexKind.tables, List.mem_cons, List.not_mem_nil,
      or_false, Option.some.injEq, reduceCtorEq, false_or] at hmem
    rcases hmem with rfl|rfl <;>
    first
      | exact decode_encode_at _ _ 0 row rfl rfl (by decide) hrow
      | exact decode_encode_at _ _ 1 row rfl rfl (by decide) hrow
      | exact decode_encode_at _ _ 2 row rfl rfl (by decide) hrow
      | exact decode_encode_at _ _ 3 row rfl rfl (by decide) hrow
      | exact decode_encode_at _ _ 4 row rfl rfl (by decide) hrow
      | exact decode_encode_at _ _ 5 row rfl rfl (by decide) hrow
      | exact decode_encode_at _ _ 6 row rfl rfl (by decide) hrow
      | exact decode_encode_at _ _ 7 row rfl rfl (by decide) hrow
      | exact decode_encode_at _ _ 8 row rfl rfl (by decide) hrow
      | exact decode_encode_at _ _ 9 row rfl rfl (by decide) hrow
      | exact decode_encode_at _ _ 10 row rfl rfl (by decide) hrow
      | exact decode_encode_at _ _ 11 row rfl rfl (by decide) hrow
      | exact decode_encode_at _ _ 12 row rfl rfl (by decide) hrow
      | exact decode_encode_at _ _ 13 row rfl rfl (by decide) hrow
      | exact decode_encode_at _ _ 14 row rfl rfl (by decide) hrow
      | exact decode_encode_at _ _ 15 row rfl rfl (by decide) hrow
      | exact decode_encode_at _ _ 16 row rfl rfl (by decide) hrow
      | exact decode_encode_at _ _ 17 row rfl rfl (by decide) hrow
      | exact decode_encode_at _ _ 18 row rfl rfl (by decide) hrow
      | exact decode_encode_at _ _ 19 row rfl rfl (by decide) hrow
      | exact decode_encode_at _ _ 20 row rfl rfl (by decide) hrow
      | exact decode_encode_at _ _ 21 row rfl rfl (by decide) hrow

/-- C3 counterexample: `TypeDef` is in `TypeDefOrRef`'s target list, but with
    row `2 ^ 30` the u32 shift in `encode` wraps to zero, so the decoded pair
    differs from the encoded one. -/
theorem coded_index_roundtrip_counterexample :
    some TableId.typeDef ∈ CodedIndexKind.typeDefOrRef.tables
    ∧ CodedIndex.decode .typeDefOrRef
        (CodedIndex.encode ⟨some .typeDef, 1073741824⟩ .typeDefOrRef)
      = ⟨some .typeDef, 0⟩
    ∧ CodedIndex.decode .typeDefOrRef
        (CodedIndex.encode ⟨some .typeDef, 1073741824⟩ .typeDefOrRef)
      ≠ ⟨some .typeDef, 1073741824⟩ := by
  refine ⟨by decide, by decide, by decide⟩

/-- Witness for C3 at scheme `ResolutionScope`, table `AssemblyRef`,
    row 12345. -/
theorem coded_index_roundtrip_witness :
    some TableId.assemblyRef ∈ CodedIndexKind.resolutionScope.tables
    ∧ (12345 : Nat) < 2 ^ (32 - CodedIndexKind.resolutionScope.tagBits)
    ∧ CodedIndex.decode .resolutionScope
        (CodedIndex.encode ⟨some .assemblyRef, 12345⟩ .resolutionScope)
      = ⟨some .assemblyRef, 12345⟩ :=
  ⟨by decide, by decide,
   coded_index_roundtrip .resolutionScope .assemblyRef 12345 (by decide) (by decide)⟩

/-! ## Claim C2 -/

/-- C2 (code-bug evidence): under the all-narrow layout context,
    `TableContext::row_size` returns 0 for both `EncLog` and `EncMap` — they
    fall into the "not implemented" catch-all — although the spec's field
    summary gives them 8 and 4 bytes and the row writers called by
    `Metadata::write_tables` emit exactly 8 and 4 bytes per row. -/
theorem row_size_enc_tables_is_zero :
    TableContext.rowSize ⟨0, List.replicate 64 0⟩ .encLog = 0
    ∧ TableContext.rowSize ⟨0, List.replicate 64 0⟩ .encMap = 0
    ∧ (EncLogRow.write ⟨0, 0⟩ [] ⟨0, List.replicate 64 0⟩).length = 8
    ∧ (EncMapRow.write ⟨0⟩ [] ⟨0, List.replicate 64 0⟩).length = 4
    ∧ TableContext.rowSize ⟨0, List.replicate 64 0⟩ .fieldPtr = 0 := by
  refine ⟨rfl, rfl, rfl, rfl, rfl⟩

/-! ## Claim C10 -/

/-- C10: every heap append operation only appends: the data present before
    `add` is a prefix of the data after it, for all four heap types, so
    every previously valid offset or index still sees the same bytes. -/
theorem heap_add_append_only :
    (∀ (h : StringsHeap) (s : List Nat),
        ((StringsHeap.add h s).2.data.take h.data.length) = h.data)
    ∧ (∀ (h : UserStringsHeap) (u : List Nat),
        ((UserStringsHeap.add h u).2.data.take h.data.length) = h.data)
    ∧ (∀ (h : BlobHeap) (b : List Nat),
        ((BlobHeap.add h b).2.data.take h.data.length) = h.data)
    ∧ (∀ (h : GuidHeap) (g : List Nat),
        ((GuidHeap.add h g).2.data.take h.data.length) = h.data) := by
  refine ⟨?_, ?_, ?_, ?_⟩
  · intro h s
    cases hm : mapLookup h.map s with
    | some off => simp [StringsHeap.add, hm]
    | none =>
      simp only [StringsHeap.add, hm]
      rw [List.append_assoc, List.take_left]
  · intro h u
    simp only [UserStringsHeap.add]
    rw [List.append_assoc, List.append_assoc, List.take_left]
  · intro h b
    cases hm : mapLookup h.map b with
    | some off => simp [BlobHeap.add, hm]
    | none =>
      simp only [BlobHeap.add, hm]
      rw [List.append_assoc, List.take_left]
  · intro h g
    simp only [GuidHeap.add]
    rw [List.take_left]

/-! ## Claim C6 -/

/-- C6 (code-bug evidence): on the varargs blob
    `[0x05, 0x02, 0x01, 0x41, 0x08, 0x41, 0x08]` — calling convention 0x05,
    two parameters, void return, each parameter preceded by a SENTINEL byte —
    `MethodSig::parse` succeeds after consuming all 7 bytes, so it consumed
    BOTH sentinel bytes, and it records `sentinel = Some 1`, the position of
    the LAST sentinel, not of the single allowed one.  An "at most one
    sentinel" parser would reject the second 0x41 as an invalid element
    type. -/
theorem method_sig_parse_consumes_two_sentinels :
    parseMethodSigBlob [0x05, 0x02, 0x01, 0x41, 0x08, 0x41, 0x08] =
      .ok (⟨0x05, 0, .primitive .voidTy, [.primitive .i4, .primitive .i4],
            some 1⟩,
           ⟨[0x05, 0x02, 0x01, 0x41, 0x08, 0x41, 0x08], 7⟩) := by
  rfl

/-! ## Claim C8 -/

theorem sha1_length (b : List Nat) : (sha1 b).length = 20 := by
  unfold sha1
  generalize (chunks64 (sha1Pad b)).foldl sha1Chunk
      (0x67452301, 0xEFCDAB89, 0x98BADCFE, 0x10325476, 0xC3D2E1F0) = t
  obtain ⟨h0, h1, h2, h3, h4⟩ := t
  simp [beBytes4]

set_option maxRecDepth 40000 in
/-- C8: `public_key_token(b)` is the reversed last-8-byte tail of
    `sha1(b)` for every byte list `b`; concretely `sha1("abc")` is the
    FIPS-180-1 test digest and `public_key_token("abc")` its reversed
    tail. -/
theorem public_key_token_is_reversed_sha1_tail :
    (∀ b : List Nat, publicKeyToken b = ((sha1 b).drop 12).reverse)
    ∧ sha1 [0x61, 0x62, 0x63] =
        [0xA9, 0x99, 0x3E, 0x36, 0x47, 0x06, 0x81, 0x6A, 0xBA, 0x3E,
         0x25, 0x71, 0x78, 0x50, 0xC2, 0x6C, 0x9C, 0xD0, 0xD8, 0x9D]
    ∧ publicKeyToken [0x61, 0x62, 0x63] =
        [0x9D, 0xD8, 0xD0, 0x9C, 0x6C, 0xC2, 0x50, 0x78] := by
  refine ⟨?_, by decide, by decide⟩
  intro b
  have hlen := sha1_length b
  apply List.ext_getElem
  · simp [publicKeyToken, hlen]
  · intro i hi hj
    simp only [publicKeyToken, List.length_map, List.length_range] at hi
    simp only [publicKeyToken, List.getElem_map, List.getElem_range]
    rw [List.getElem_reverse]
    rw [List.getElem_drop]
    rw [List.getD_eq_getElem (sha1 b) 0 (by omega)]
    congr 1
    simp only [List.length_reverse, List.length_drop, hlen] at hj ⊢
    omega

/-! ## Claim C1 -/

set_option maxRecDepth 100000 in
/-- C1 (code-bug evidence): on a metadata value with two Module rows, a `#~`
    stream and a `#Strings` stream (and an internally consistent header),
    the emitted root directory declares `#Strings` at offset 108 with size
    3, but `Metadata::write` actually places the strings bytes at offset
    104 — the declared tables-stream size (52) counts each Module row at
    `row_size` = 12 while `ModuleRow::write` emits only 10 bytes, so the
    stream does not occupy its declared region (the output even ends at
    108). -/
theorem write_streams_miss_declared_regions :
    Metadata.layoutStreams mdC1 =
      [⟨56, 52, nameTables⟩, ⟨108, 3, nameStrings⟩]
    ∧ (Metadata.write mdC1).take 4 = [0x42, 0x53, 0x4A, 0x42]
    ∧ (Metadata.write mdC1).length = 108
    ∧ ((Metadata.write mdC1).drop 104).take 3 = mdC1.strings.data
    ∧ ((Metadata.write mdC1).drop 108).take 3 ≠ mdC1.strings.data
    ∧ Metadata.calculateTablesSize mdC1 = 52
    ∧ (Metadata.writeTables mdC1 []
        (Metadata.calculateHeapSizes mdC1)).length = 48 := by
  exact ⟨rfl, rfl, rfl, rfl, by decide, rfl, rfl⟩

/-! ## Claim C4 -/

theorem if_singleton_eq_nil (c : Prop) [Decidable c] (m : String) :
    ((if c then [m] else []) = ([] : List String)) ↔ ¬ c := by
  split <;> simp_all

theorem Res.isErr_false_iff {α : Type} (r : Res α) :
    r.isErr = false ↔ r.isOk = true := by
  cases r <;> simp [Res.isOk, Res.isErr]

theorem forall_enum_snd {α : Type} (l : List α) (P : α → Prop) :
    (∀ p ∈ l.enum, P p.2) ↔ ∀ r ∈ l, P r := by
  constructor
  · intro h r hr
    obtain ⟨i, hi⟩ := List.mem_iff_getElem?.1 hr
    exact h (i, r) (List.mk_mem_enum_iff_getElem?.2 hi)
  · intro h p hp
    obtain ⟨i, r⟩ := p
    exact h r (List.getElem?_mem (List.mk_mem_enum_iff_getElem?.1 hp))

theorem enum_flatMap_nil_iff {α : Type} (l : List α) (f : Nat × α → List String)
    (P : α → Prop) (h : ∀ i r, (f (i, r) = []) ↔ P r) :
    (l.enum.flatMap f = []) ↔ ∀ r ∈ l, P r := by
  rw [List.flatMap_eq_nil_iff]
  rw [← forall_enum_snd l P]
  constructor
  · intro hh p hp
    exact (h p.1 p.2).1 (hh p hp)
  · intro hh p hp
    exact (h p.1 p.2).2 (hh p hp)

theorem modules_empty_check_iff (md : Metadata) :
    ((if md.modules.isEmpty then ["Module table must have at least 1 row"]
      else []) = []) ↔ md.modules ≠ [] := by
  rw [if_singleton_eq_nil]
  simp [List.isEmpty_iff]

theorem moduleBlock_iff (md : Metadata) :
    (md.modules.enum.flatMap (fun p =>
        Metadata.vStringIndex md "Module" p.1 "name" p.2.name
        ++ Metadata.vGuidIndex md "Module" p.1 "mvid" p.2.mvid) = [])
    ↔ ∀ r ∈ md.modules,
        (r.name ≠ 0 → (md.strings.get r.name).isOk = true)
        ∧ (r.mvid ≠ 0 → (md.guids.get r.mvid).isOk = true) :=
  enum_flatMap_nil_iff _ _ _ (fun i r => by
    simp only [List.append_eq_nil, Metadata.vStringIndex, Metadata.vGuidIndex,
      if_singleton_eq_nil, not_and, Bool.not_eq_true, Res.isErr_false_iff])

theorem typeRefBlock_iff (md : Metadata) :
    (md.typeRefs.enum.flatMap (fun p =>
        Metadata.vStringIndex md "TypeRef" p.1 "type_name" p.2.typeName
        ++ Metadata.vStringIndex md "TypeRef" p.1 "type_namespace" p.2.typeNamespace) = [])
    ↔ ∀ r ∈ md.typeRefs,
        (r.typeName ≠ 0 → (md.strings.get r.typeName).isOk = true)
        ∧ (r.typeNamespace ≠ 0 → (md.strings.get r.typeNamespace).isOk = true) :=
  enum_flatMap_nil_iff _ _ _ (fun i r => by
    simp only [List.append_eq_nil, Metadata.vStringIndex,
      if_singleton_eq_nil, not_and, Bool.not_eq_true, Res.isErr_false_iff])

theorem typeDefBlock_iff (md : Metadata) :
    (md.typeDefs.enum.flatMap (fun p =>
        Metadata.vStringIndex md "TypeDef" p.1 "type_name" p.2.typeName
        ++ Metadata.vStringIndex md "TypeDef" p.1 "type_namespace" p.2.typeNamespace
        ++ Metadata.vTableIndex "TypeDef" p.1 "field_list" p.2.fieldList md.fields.length
        ++ Metadata.vTableIndex "TypeDef" p.1 "method_list" p.2.methodList md.methodDefs.length) = [])
    ↔ ∀ r ∈ md.typeDefs,
        (r.typeName ≠ 0 → (md.strings.get r.typeName).isOk = true)
        ∧ (r.typeNamespace ≠ 0 → (md.strings.get r.typeNamespace).isOk = true)
        ∧ r.fieldList ≤ md.fields.length % 2 ^ 32 + 1
        ∧ r.methodList ≤ md.methodDefs.length % 2 ^ 32 + 1 :=
  enum_flatMap_nil_iff _ _ _ (fun i r => by
    simp only [List.append_eq_nil, Metadata.vStringIndex, Metadata.vTableIndex,
      if_singleton_eq_nil, not_and, Bool.not_eq_true, Res.isErr_false_iff,
      Nat.not_lt, and_assoc])

theorem fieldBlock_iff (md : Metadata) :
    (md.fields.enum.flatMap (fun p =>
        Metadata.vStringIndex md "Field" p.1 "name" p.2.name
        ++ Metadata.vBlobIndex md "Field" p.1 "signature" p.2.signature) = [])
    ↔ ∀ r ∈ md.fields,
        (r.name ≠ 0 → (md.strings.get r.name).isOk = true)
        ∧ (r.signature ≠ 0 → (md.blobs.get r.signature).isOk = true) :=
  enum_flatMap_nil_iff _ _ _ (fun i r => by
    simp only [List.append_eq_nil, Metadata.vStringIndex, Metadata.vBlobIndex,
      if_singleton_eq_nil, not_and, Bool.not_eq_true, Res.isErr_false_iff])

theorem methodDefBlock_iff (md : Metadata) :
    (md.methodDefs.enum.flatMap (fun p =>
        Metadata.vStringIndex md "MethodDef" p.1 "name" p.2.name
        ++ Metadata.vBlobIndex md "MethodDef" p.1 "signature" p.2.signature
        ++ Metadata.vTableIndex "MethodDef" p.1 "param_list" p.2.paramList md.params.length) = [])
    ↔ ∀ r ∈ md.methodDefs,
        (r.name ≠ 0 → (md.strings.get r.name).isOk = true)
        ∧ (r.signature ≠ 0 → (md.blobs.get r.signature).isOk = true)
        ∧ r.paramList ≤ md.params.length % 2 ^ 32 + 1 :=
  enum_flatMap_nil_iff _ _ _ (fun i r => by
    simp only [List.append_eq_nil, Metadata.vStringIndex, Metadata.vBlobIndex,
      Metadata.vTableIndex, if_singleton_eq_nil, not_and, Bool.not_eq_true,
      Res.isErr_false_iff, Nat.not_lt, and_assoc])

theorem paramBlock_iff (md : Metadata) :
    (md.params.enum.flatMap (fun p =>
        Metadata.vStringIndex md "Param" p.1 "name" p.2.name) = [])
    ↔ ∀ r ∈ md.params, r.name ≠ 0 → (md.strings.get r.name).isOk = true :=
  enum_flatMap_nil_iff _ _ _ (fun i r => by
    simp only [Metadata.vStringIndex, if_singleton_eq_nil, not_and,
      Bool.not_eq_true, Res.isErr_false_iff])

theorem memberRefBlock_iff (md : Metadata) :
    (md.memberRefs.enum.flatMap (fun p =>
        Metadata.vStringIndex md "MemberRef" p.1 "name" p.2.name
        ++ Metadata.vBlobIndex md "MemberRef" p.1 "signature" p.2.signature) = [])
    ↔ ∀ r ∈ md.memberRefs,
        (r.name ≠ 0 → (md.strings.get r.name).isOk = true)
        ∧ (r.signature ≠ 0 → (md.blobs.get r.signature).isOk = true) :=
  enum_flatMap_nil_iff _ _ _ (fun i r => by
    simp only [List.append_eq_nil, Metadata.vStringIndex, Metadata.vBlobIndex,
      if_singleton_eq_nil, not_and, Bool.not_eq_true, Res.isErr_false_iff])

theorem constantBlock_iff (md : Metadata) :
    (md.constants.enum.flatMap (fun p =>
        Metadata.vBlobIndex md "Constant" p.1 "value" p.2.value) = [])
    ↔ ∀ r ∈ md.constants, r.value ≠ 0 → (md.blobs.get r.value).isOk = true :=
  enum_flatMap_nil_iff _ _ _ (fun i r => by
    simp only [Metadata.vBlobIndex, if_singleton_eq_nil, not_and,
      Bool.not_eq_true, Res.isErr_false_iff])

theorem customAttributeBlock_iff (md : Metadata) :
    (md.customAttributes.enum.flatMap (fun p =>
        Metadata.vBlobIndex md "CustomAttribute" p.1 "value" p.2.value) = [])
    ↔ ∀ r ∈ md.customAttributes, r.value ≠ 0 → (md.blobs.get r.value).isOk = true :=
  enum_flatMap_nil_iff _ _ _ (fun i r => by
    simp only [Metadata.vBlobIndex, if_singleton_eq_nil, not_and,
      Bool.not_eq_true, Res.isErr_false_iff])

theorem assemblyBlock_iff (md : Metadata) :
    (md.assemblies.enum.flatMap (fun p =>
        Metadata.vStringIndex md "Assembly" p.1 "name" p.2.name
        ++ Metadata.vStringIndex md "Assembly" p.1 "culture" p.2.culture
        ++ Metadata.vBlobIndex md "Assembly" p.1 "public_key" p.2.publicKey) = [])
    ↔ ∀ r ∈ md.assemblies,
        (r.name ≠ 0 → (md.strings.get r.name).isOk = true)
        ∧ (r.culture ≠ 0 → (md.strings.get r.culture).isOk = true)
        ∧ (r.publicKey ≠ 0 → (md.blobs.get r.publicKey).isOk = true) :=
  enum_flatMap_nil_iff _ _ _ (fun i r => by
    simp only [List.append_eq_nil, Metadata.vStringIndex, Metadata.vBlobIndex,
      if_singleton_eq_nil, not_and, Bool.not_eq_true, Res.isErr_false_iff,
      and_assoc])

theorem assemblyRefBlock_iff (md : Metadata) :
    (md.assemblyRefs.enum.flatMap (fun p =>
        Metadata.vStringIndex md "AssemblyRef" p.1 "name" p.2.name
        ++ Metadata.vStringIndex md "AssemblyRef" p.1 "culture" p.2.culture
        ++ Metadata.vBlobIndex md "AssemblyRef" p.1 "public_key_or_token" p.2.publicKeyOrToken
        ++ Metadata.vBlobIndex md "AssemblyRef" p.1 "hash_value" p.2.hashValue) = [])
    ↔ ∀ r ∈ md.assemblyRefs,
        (r.name ≠ 0 → (md.strings.get r.name).isOk = true)
        ∧ (r.culture ≠ 0 → (md.strings.get r.culture).isOk = true)
        ∧ (r.publicKeyOrToken ≠ 0 → (md.blobs.get r.publicKeyOrToken).isOk = true)
        ∧ (r.hashValue ≠ 0 → (md.blobs.get r.hashValue).isOk = true) :=
  enum_flatMap_nil_iff _ _ _ (fun i r => by
    simp only [List.append_eq_nil, Metadata.vStringIndex, Metadata.vBlobIndex,
      if_singleton_eq_nil, not_and, Bool.not_eq_true, Res.isErr_false_iff,
      and_assoc])

/-- C4 (amended): `validate` returns the empty list exactly when the checks
    it actually performs all pass — the Module table is nonempty and, in the
    eleven visited tables, every visited nonzero heap index resolves and
    every visited list index is at most rows + 1 — and `validate_strict`
    returns `Ok` exactly when `validate` is empty, otherwise the first
    collected error as a `ValidationError`.  (The unamended claim, over
    "every heap index stored in every table row", fails: several tables and
    fields are never visited.) -/
theorem validate_empty_iff_checked_conditions (md : Metadata) :
    (md.validate = [] ↔ md.validateOk)
    ∧ (match md.validate with
       | [] => md.validateStrict = .ok ()
       | e :: _ => md.validateStrict = .err (.validationError e)) := by
  constructor
  · unfold Metadata.validate Metadata.validateOk
    simp only [List.append_eq_nil]
    rw [modules_empty_check_iff, moduleBlock_iff, typeRefBlock_iff,
      typeDefBlock_iff, fieldBlock_iff, methodDefBlock_iff, paramBlock_iff,
      memberRefBlock_iff, constantBlock_iff, customAttributeBlock_iff,
      assemblyBlock_iff, assemblyRefBlock_iff]
    simp only [and_assoc]
  · unfold Metadata.validateStrict
    cases md.validate <;> simp

/-- C4 counterexample: `mdC4` has a ModuleRef row whose nonzero string index
    5 does not resolve, yet `validate` returns the empty list — condition
    (a) of the claim does not hold although the error list is empty. -/
theorem validate_empty_despite_unresolvable_index :
    Metadata.validate mdC4 = []
    ∧ mdC4.moduleRefs = [⟨5⟩]
    ∧ (mdC4.strings.get 5).isOk = false := by
  exact ⟨rfl, rfl, rfl⟩

/-! ## C5: heap deduplication round-trip -/

/-- If `l` begins with the NUL-free byte run `x` and the byte right after
    that run is 0, the terminator scan in `StringsHeap::get` stops exactly
    at index `x.length`. -/
theorem findIdx_zero_after (x : List Nat) (hx : 0 ∉ x) :
    ∀ l : List Nat, l.take x.length = x → l.getD x.length 1 = 0 →
      l.findIdx? (fun b => b == 0) = some x.length := by
  induction x with
  | nil =>
    intro l hpre hterm
    cases l with
    | nil => simp at hterm
    | cons b t =>
      simp only [List.length_nil, List.getD_cons_zero] at hterm
      simp [List.findIdx?_cons, hterm]
  | cons a x' ih =>
    intro l hpre hterm
    cases l with
    | nil => simp at hpre
    | cons b t =>
      rw [List.length_cons, List.take_succ_cons] at hpre
      have hb : b = a := (List.cons_eq_cons.mp hpre).1
      have ht : t.take x'.length = x' := (List.cons_eq_cons.mp hpre).2
      have ha : (b == 0) = false := by
        simp only [beq_eq_false_iff_ne, ne_eq, hb]
        intro h0
        exact hx (by simp [h0])
      have hx' : 0 ∉ x' := fun h0 => hx (List.mem_cons_of_mem _ h0)
      have hterm' : t.getD x'.length 1 = 0 := by
        simpa only [List.length_cons, List.getD_cons_succ] using hterm
      have hrec := ih hx' t ht hterm'
      simp [List.findIdx?_cons, ha, List.findIdx?_succ, hrec]

/-- A successful `mapLookup` exhibits a matching entry of the map. -/
theorem mapLookup_eq_some_imp {κ : Type} [DecidableEq κ]
    (m : List (κ × Nat)) (k : κ) (off : Nat)
    (h : mapLookup m k = some off) : (k, off) ∈ m := by
  unfold mapLookup at h
  cases hf : m.find? (fun p => p.1 == k) with
  | none => rw [hf] at h; exact absurd h (by simp)
  | some p =>
    rw [hf] at h
    have hm := List.mem_of_find?_eq_some hf
    have hk : p.1 = k := by simpa using List.find?_some hf
    have hoff : p.2 = off := by simpa using h
    have hpk : p = (k, off) := by
      cases p
      simp_all
    rwa [hpk] at hm

/-- The compressed-length header is never empty. -/
theorem writeCompressedUint_nil_length_pos (v : Nat) :
    0 < (writeCompressedUint [] v).length := by
  unfold writeCompressedUint
  split
  · simp [writeU8]
  · split <;> simp [writeU8]

/-- `StringsHeap::get` at an offset where a NUL-free, NUL-terminated,
    UTF-8-valid byte run `x` is stored returns `x`. -/
theorem stringsHeap_get_at (d : List Nat) (m : List (List Nat × Nat))
    (off : Nat) (x : List Nat) (hutf : utf8Valid x = true) (hnz : 0 ∉ x)
    (hofflt : off < d.length)
    (htake : (d.drop off).take x.length = x)
    (hterm : d.getD (off + x.length) 1 = 0) :
    StringsHeap.get ⟨d, m⟩ off = .ok x := by
  have hgd : (d.drop off).getD x.length 1 = 0 := by
    rw [List.getD_eq_getElem?_getD, List.getElem?_drop,
      ← List.getD_eq_getElem?_getD]
    exact hterm
  have hfind := findIdx_zero_after x hnz (d.drop off) htake hgd
  unfold StringsHeap.get
  rw [if_neg (by omega : ¬ off ≥ d.length), hfind]
  show (if utf8Valid ((d.drop off).take x.length) = true
        then Res.ok ((d.drop off).take x.length)
        else Res.err (Err.invalidString off))
      = Res.ok x
  rw [htake, if_pos hutf]

/-- `BlobHeap::get` at an offset where the compressed length of `x`
    followed by `x` is stored returns `x`. -/
theorem blobHeap_get_at (d : List Nat) (m : List (List Nat × Nat))
    (off : Nat) (x tail : List Nat) (hx29 : x.length < 2 ^ 29)
    (hdrop : d.drop off = writeCompressedUint [] x.length ++ (x ++ tail))
    (hle : off + (writeCompressedUint [] x.length).length + x.length
        ≤ d.length)
    (hofflt : off < d.length) :
    BlobHeap.get ⟨d, m⟩ off = .ok x := by
  have hread := readCompressedUint_of_write x.length hx29 (x ++ tail)
  unfold BlobHeap.get
  rw [if_neg (by omega : ¬ off ≥ d.length), hdrop, hread]
  show (if off + (writeCompressedUint [] x.length).length + x.length
          > d.length
        then Res.err (Err.invalidBlob off)
        else Res.ok ((d.drop
            (off + (writeCompressedUint [] x.length).length)).take x.length))
      = Res.ok x
  rw [if_neg (by omega :
    ¬ off + (writeCompressedUint [] x.length).length + x.length > d.length)]
  rw [show d.drop (off + (writeCompressedUint [] x.length).length)
        = x ++ tail from by
    rw [← List.drop_drop, hdrop, List.drop_left]]
  rw [List.take_left]

/-- `add x; add x` on a well-formed `#Strings` heap yields the same offset
    twice, and `get` at that offset recovers `x`, provided `x` is valid
    UTF-8 and NUL-free and the heap stays below 4 GiB. -/
theorem stringsHeap_add_add_get (h : StringsHeap) (x : List Nat)
    (hwf : StringsHeap.WF h) (hlen : h.data.length < 2 ^ 32)
    (hutf : utf8Valid x = true) (hnz : 0 ∉ x) :
    ((h.add x).2.add x).1 = (h.add x).1
    ∧ ((h.add x).2.add x).2.get (h.add x).1 = .ok x := by
  cases hm : mapLookup h.map x with
  | some off =>
    obtain ⟨hb1, hb2, hb3⟩ := hwf (x, off) (mapLookup_eq_some_imp _ _ _ hm)
    dsimp only at hb1 hb2 hb3
    have hadd : h.add x = (off, h) := by
      unfold StringsHeap.add
      rw [hm]
    rw [hadd, hadd]
    exact ⟨rfl, stringsHeap_get_at h.data h.map off x hutf hnz
      (by omega) hb2 hb3⟩
  | none =>
    have hoff : h.data.length % 2 ^ 32 = h.data.length := Nat.mod_eq_of_lt hlen
    have hadd : h.add x =
        (h.data.length,
          ⟨h.data ++ x ++ [0], (x, h.data.length) :: h.map⟩) := by
      unfold StringsHeap.add
      rw [hm]
      simp only [hoff]
    have hm2 :
        mapLookup ((x, h.data.length) :: h.map) x = some h.data.length := by
      simp [mapLookup, List.find?_cons]
    have hadd2 :
        StringsHeap.add ⟨h.data ++ x ++ [0], (x, h.data.length) :: h.map⟩ x
          = (h.data.length,
             ⟨h.data ++ x ++ [0], (x, h.data.length) :: h.map⟩) := by
      unfold StringsHeap.add
      rw [hm2]
    rw [hadd]
    refine ⟨by rw [hadd2], ?_⟩
    rw [hadd2]
    refine stringsHeap_get_at _ _ _ _ hutf hnz ?_ ?_ ?_
    · simp only [List.length_append, List.length_cons, List.length_nil]
      omega
    · rw [List.append_assoc, List.drop_left, List.take_left]
    · rw [List.getD_eq_getElem?_getD,
        List.getElem?_append_right (le_of_eq (List.length_append _ _))]
      simp

/-- `add x; add x` on a well-formed `#Blob` heap yields the same offset
    twice, and `get` at that offset recovers `x`, provided `x` is shorter
    than `2 ^ 29` and the heap stays below 4 GiB. -/
theorem blobHeap_add_add_get (h : BlobHeap) (x : List Nat)
    (hwf : BlobHeap.WF h) (hlen : h.data.length < 2 ^ 32)
    (hx29 : x.length < 2 ^ 29) :
    ((h.add x).2.add x).1 = (h.add x).1
    ∧ ((h.add x).2.add x).2.get (h.add x).1 = .ok x := by
  have hencpos := writeCompressedUint_nil_length_pos x.length
  cases hm : mapLookup h.map x with
  | some off =>
    obtain ⟨hb1, hb2⟩ := hwf (x, off) (mapLookup_eq_some_imp _ _ _ hm) hx29
    dsimp only at hb1 hb2
    have hadd : h.add x = (off, h) := by
      unfold BlobHeap.add
      rw [hm]
    rw [hadd, hadd]
    have hsplit : h.data.drop off =
        writeCompressedUint [] x.length
          ++ (x ++ (h.data.drop off).drop
              ((writeCompressedUint [] x.length).length + x.length)) := by
      conv_lhs => rw [← List.take_append_drop
        ((writeCompressedUint [] x.length).length + x.length)
        (h.data.drop off)]
      rw [hb2, List.append_assoc]
    exact ⟨rfl, blobHeap_get_at h.data h.map off x _ hx29 hsplit
      (by omega) (by omega)⟩
  | none =>
    have hoff : h.data.length % 2 ^ 32 = h.data.length := Nat.mod_eq_of_lt hlen
    have hx32 : x.length % 2 ^ 32 = x.length := Nat.mod_eq_of_lt (by omega)
    have hadd : h.add x =
        (h.data.length,
          ⟨(h.data ++ writeCompressedUint [] x.length) ++ x,
           (x, h.data.length) :: h.map⟩) := by
      unfold BlobHeap.add
      rw [hm]
      simp only [hoff, hx32]
    have hm2 :
        mapLookup ((x, h.data.length) :: h.map) x = some h.data.length := by
      simp [mapLookup, List.find?_cons]
    have hadd2 :
        BlobHeap.add
            ⟨(h.data ++ writeCompressedUint [] x.length) ++ x,
             (x, h.data.length) :: h.map⟩ x
          = (h.data.length,
             ⟨(h.data ++ writeCompressedUint [] x.length) ++ x,
              (x, h.data.length) :: h.map⟩) := by
      unfold BlobHeap.add
      rw [hm2]
    rw [hadd]
    refine ⟨by rw [hadd2], ?_⟩
    rw [hadd2]
    refine blobHeap_get_at _ _ _ _ [] hx29 ?_ ?_ ?_
    · rw [List.append_nil, List.append_assoc, List.drop_left]
    · simp only [List.length_append]
      omega
    · simp only [List.length_append]
      omega

/-- C5 counterexample: the claim as stated fails for strings containing an
    interior NUL byte.  Adding the one-byte string `[0]` to a fresh
    `#Strings` heap twice returns offset 1 both times, but `get 1` stops at
    the stored byte itself and returns the empty string, not `[0]`. -/
theorem heap_dedup_get_counterexample :
    (((StringsHeap.new.add [0]).2.add [0]).1 = (StringsHeap.new.add [0]).1)
    ∧ ((StringsHeap.new.add [0]).2.add [0]).2.get
        (StringsHeap.new.add [0]).1 = .ok []
    ∧ (Res.ok ([] : List Nat)) ≠ .ok [0] := by
  exact ⟨rfl, rfl, by decide⟩

/-- C5 (amended): on a well-formed heap below 4 GiB, `add x; add x` returns
    the same offset twice and `get` at that offset returns `x` — for
    `#Strings` provided `x` is valid UTF-8 with no interior NUL, for
    `#Blob` provided `x` is shorter than `2 ^ 29` bytes. -/
theorem heap_add_dedup_get_roundtrip :
    (∀ (h : StringsHeap) (x : List Nat),
        StringsHeap.WF h → h.data.length < 2 ^ 32 →
        utf8Valid x = true → 0 ∉ x →
        ((h.add x).2.add x).1 = (h.add x).1
        ∧ ((h.add x).2.add x).2.get (h.add x).1 = .ok x)
    ∧ (∀ (h : BlobHeap) (x : List Nat),
        BlobHeap.WF h → h.data.length < 2 ^ 32 → x.length < 2 ^ 29 →
        ((h.add x).2.add x).1 = (h.add x).1
        ∧ ((h.add x).2.add x).2.get (h.add x).1 = .ok x) :=
  ⟨stringsHeap_add_add_get, blobHeap_add_add_get⟩

/-- C5 witness: the amended round-trip at the fresh heaps, with the string
    `[0x41]` and the blob `[0xAB, 0xCD]`. -/
theorem heap_add_dedup_get_roundtrip_witness :
    (StringsHeap.WF StringsHeap.new
      ∧ StringsHeap.new.data.length < 2 ^ 32
      ∧ utf8Valid [0x41] = true
      ∧ (0 : Nat) ∉ ([0x41] : List Nat)
      ∧ ((StringsHeap.new.add [0x41]).2.add [0x41]).1
          = (StringsHeap.new.add [0x41]).1
      ∧ ((StringsHeap.new.add [0x41]).2.add [0x41]).2.get
          (StringsHeap.new.add [0x41]).1 = .ok [0x41])
    ∧ (BlobHeap.WF BlobHeap.new
      ∧ BlobHeap.new.data.length < 2 ^ 32
      ∧ ([0xAB, 0xCD] : List Nat).length < 2 ^ 29
      ∧ ((BlobHeap.new.add [0xAB, 0xCD]).2.add [0xAB, 0xCD]).1
          = (BlobHeap.new.add [0xAB, 0xCD]).1
      ∧ ((BlobHeap.new.add [0xAB, 0xCD]).2.add [0xAB, 0xCD]).2.get
          (BlobHeap.new.add [0xAB, 0xCD]).1 = .ok [0xAB, 0xCD]) := by
  have hwfS : StringsHeap.WF StringsHeap.new := by
    intro p hp
    rw [show StringsHeap.new.map = [([], 0)] from rfl,
      List.mem_singleton] at hp
    subst hp
    exact ⟨by decide, by decide, by decide⟩
  have hwfB : BlobHeap.WF BlobHeap.new := by
    intro p hp
    rw [show BlobHeap.new.map = [([], 0)] from rfl,
      List.mem_singleton] at hp
    subst hp
    intro _
    exact ⟨by decide, by decide⟩
  refine ⟨⟨hwfS, by decide, by decide, by decide, ?_, ?_⟩,
          ⟨hwfB, by decide, by decide, ?_, ?_⟩⟩
  · exact (heap_add_dedup_get_roundtrip.1 StringsHeap.new [0x41] hwfS
      (by decide) (by decide) (by decide)).1
  · exact (heap_add_dedup_get_roundtrip.1 StringsHeap.new [0x41] hwfS
      (by decide) (by decide) (by decide)).2
  · exact (heap_add_dedup_get_roundtrip.2 BlobHeap.new [0xAB, 0xCD] hwfB
      (by decide) (by decide)).1
  · exact (heap_add_dedup_get_roundtrip.2 BlobHeap.new [0xAB, 0xCD] hwfB
      (by decide) (by decide)).2

end Clrmeta
